import Mathlib

/-!
# Renting system: the rental-details and COD handlers of `backend/src/order/rent.js`

A shallow embedding of the two `PATCH` handlers of `routerRent`:

* `PATCH /:user_id/:vehicle_id/:order_id` (`finalizeBooking` below), and
* `PATCH /cod/:order_id` (`settleDeferred` below).

Modelling conventions.

* The relational store is two tables, `orders` and `vehicle_status`, each a list of rows.
  `SELECT ... WHERE` is `List.filter`, `UPDATE ... WHERE` is `List.map` over the matching rows.
* Instants (`new Date(x).getTime()`, and the `rent_start_date` / `rent_end_date` columns) are
  integers, in milliseconds.  A missing or empty date string of the request body is `none`.
  A SQL `NULL` is `none`.
* The date condition of the conflict query is evaluated in SQL's three-valued logic.
* The price columns hold decimals (rationals).  The handler computes with JS numbers, modelled
  as the rationals that binary64 values denote: `toDouble` rounds to the nearest binary64 number,
  a product is the rounded exact product, and `toFixed(2)` reads the exact value of the number.
  The `grand_total` column holds the number the handler passes to the `UPDATE`.
* Every `await db.promise()...` may throw; which calls throw is the parameter `throws`.
  The unit of work is recorded as the list of transaction events the handler issued.
-/

namespace RentingSystem

/-! ## Data model -/

/-- A JS value read from a column whose type the handler does not fix (`paid_status`). -/
inductive JsVal where
  | null
  | num (n : Int)
  | str (s : String)
  deriving DecidableEq, Repr

/-- The `terms` field of the request body. -/
inductive BodyTerms where
  | missing
  | bool (b : Bool)
  | str (s : String)
  deriving DecidableEq, Repr

/-- A row of the `orders` table (the columns `rent.js` reads or writes). -/
structure Order where
  order_id : Nat
  vehicle_id : Nat
  rent_start_date : Option Int
  rent_end_date : Option Int
  terms : Option Bool
  licenseImage : Option String
  status : String
  rental_days : Option Int
  grand_total : Option ℚ
  paid_status : JsVal
  delivered_status : Option String
  transaction_uuid : Option String
  payment_method : Option String
  deriving DecidableEq

/-- A row of the `vehicle_status` table. -/
structure VehicleStatus where
  vehicle_id : Nat
  final_price : Option ℚ
  discounted_price : Option ℚ
  availability : Int
  deriving DecidableEq

/-- The two tables the handlers touch. -/
structure Store where
  orders : List Order
  vehicle_status : List VehicleStatus
  deriving DecidableEq

/-- The request of `PATCH /:user_id/:vehicle_id/:order_id`: URL parameters, body and file. -/
structure RentalRequest where
  user_id : Nat
  vehicle_id : Nat
  order_id : Nat
  rent_start_date : Option Int
  rent_end_date : Option Int
  terms : BodyTerms
  file : Option String
  deriving DecidableEq

/-- The `rentalDetails` object of the success response. -/
structure RentalDetails where
  order_id : Nat
  user_id : Nat
  vehicle_id : Nat
  rent_start_date : Int
  rent_end_date : Int
  rental_days : Int
  terms : Bool
  licenseImage : Option String
  status : String
  grand_total : ℚ
  deriving DecidableEq

/-- A row returned by the conflict query: `SELECT rent_start_date, rent_end_date`. -/
abbrev DateRow := Option Int × Option Int

/-- The HTTP response: `res.status(code).json({ message, ... })`. -/
structure Response where
  code : Nat
  message : String
  conflictingDates : Option (List DateRow)
  rentalDetails : Option RentalDetails
  deriving DecidableEq

/-- The `db.promise()` calls of the two handlers, in program order. -/
inductive DbCall where
  | beginTransaction
  | conflictQuery
  | orderQuery
  | priceQuery
  | updateOrder
  | updateVehicle
  | commit
  deriving DecidableEq, Repr

/-- Transaction statements issued on the connection. -/
inductive TxEvent where
  | begin
  | commit
  | rollback
  deriving DecidableEq, Repr

/-- What one handler execution leaves behind: the response, the store, and the transaction
statements it issued. -/
structure Outcome where
  response : Response
  store : Store
  tx : List TxEvent
  deriving DecidableEq

/-- No `db.promise()` call throws. -/
def noFaults : DbCall → Bool := fun _ => false

/-! ## SQL three-valued logic -/

/-- SQL `a <= b`. -/
def sqlLe : Option Int → Option Int → Option Bool
  | some a, some b => some (decide (a ≤ b))
  | _, _ => none

/-- SQL `AND`. -/
def sqlAnd : Option Bool → Option Bool → Option Bool
  | some false, _ => some false
  | _, some false => some false
  | some true, some true => some true
  | _, _ => none

/-- SQL `OR`. -/
def sqlOr : Option Bool → Option Bool → Option Bool
  | some true, _ => some true
  | _, some true => some true
  | some false, some false => some false
  | _, _ => none

/-- SQL `x BETWEEN lo AND hi`, that is `lo <= x AND x <= hi`. -/
def sqlBetween (x lo hi : Option Int) : Option Bool :=
  sqlAnd (sqlLe lo x) (sqlLe x hi)

/-! ## The conflict query (rent.js 83-103) -/

/-- The parenthesised date condition of the conflict query, over the row's two date columns and
the six placeholders `p1 .. p6` in textual order. -/
def dateCondition (rent_start_date rent_end_date : Option Int)
    (p1 p2 p3 p4 p5 p6 : Option Int) : Option Bool :=
  sqlOr (sqlOr (sqlOr
    (sqlBetween rent_start_date p1 p2)
    (sqlBetween rent_end_date p3 p4))
    (sqlBetween p5 rent_start_date rent_end_date))
    (sqlBetween p6 rent_start_date rent_end_date)

/-- The status part of the `WHERE` clause:
`status NOT IN ('canceled', 'expires') AND status IN ('completed', 'payment_pending', 'draft')`. -/
def statusCondition (status : String) : Bool :=
  (!(status == "canceled" || status == "expires")) &&
    (status == "completed" || status == "payment_pending" || status == "draft")

/-- The date condition with the six placeholders bound as the handler's parameter array binds
them: `[vehicle_id, rent_start_date, rent_end_date, rent_start_date, rent_end_date,
  rent_start_date, rent_end_date]` (the first entry is the `vehicle_id = ?` placeholder). -/
def boundDateCondition (rent_start_date rent_end_date : Option Int) (rs re : Int) : Option Bool :=
  dateCondition rent_start_date rent_end_date
    (some rs) (some re) (some rs) (some re) (some rs) (some re)

/-- The whole `WHERE` clause of the conflict query: a row is returned when the clause evaluates
to TRUE (not to FALSE or NULL). -/
def conflictWhere (vehicle_id : Nat) (rs re : Int) (o : Order) : Bool :=
  o.vehicle_id == vehicle_id && statusCondition o.status &&
    (boundDateCondition o.rent_start_date o.rent_end_date rs re == some true)

/-- The rows the conflict query returns. -/
def conflictQuery (orders : List Order) (vehicle_id : Nat) (rs re : Int) : List DateRow :=
  (orders.filter (conflictWhere vehicle_id rs re)).map
    (fun o => (o.rent_start_date, o.rent_end_date))

/-! ## Arithmetic of the rental-details handler -/

/-- Milliseconds per day: `1000 * 60 * 60 * 24`. -/
def msPerDay : Int := 1000 * 60 * 60 * 24

/-- `Math.ceil(a / b)` for an integer `a` and a positive integer `b`. -/
def ceilDiv (a b : Int) : Int := -((-a) / b)

/-- The day count: `Math.ceil((end.getTime() - start.getTime()) / (1000 * 60 * 60 * 24))`. -/
def rentalDaysOf (rs re : Int) : Int := ceilDiv (re - rs) msPerDay

/-- The checks between `beginTransaction` and the conflict query (rent.js 61-80): `none` when
the request passes, otherwise the message of the 400 response. -/
def dateValidation (now rs re : Int) (accepted : Bool) : Option String :=
  if rs < now || re < now then some "Rental dates cannot be in the past."
  else if !accepted then some "You must accept the terms and conditions."
  else if rentalDaysOf rs re ≤ 0 then some "Invalid rental period."
  else none

/-- `isTermsAccepted = terms === "true" || terms === true`. -/
def isTermsAccepted (t : BodyTerms) : Bool :=
  t == BodyTerms.str "true" || t == BodyTerms.bool true

/-- JS truthiness of a string-or-null value. -/
def truthyStr : Option String → Bool
  | some s => s != ""
  | none => false

/-- JS truthiness of a `terms` column value. -/
def truthyBool : Option Bool → Bool
  | some b => b
  | none => false

/-- The write-once guard: `orderStart && orderEnd && orderTerms && orderLicense`. -/
def hasRentalDetails (o : Order) : Bool :=
  o.rent_start_date.isSome && o.rent_end_date.isSome && truthyBool o.terms &&
    truthyStr o.licenseImage

/-! ### JS numbers

A JS number is an IEEE 754 binary64 value; it is represented here by the rational it denotes.
`toDouble x` is the binary64 number nearest to the rational `x` (53-bit significand, ties to
even, gradual underflow below `2 ^ (-1022)`).  Overflow to `Infinity` and `NaN` are outside the
model: every number that occurs is far below `2 ^ 1024`. -/

/-- The exponent of the binade of `x`: `floor (log2 |x|)`, and `-1022` for subnormals. -/
def binade (x : ℚ) : Int := max (Int.log 2 |x|) (-1022)

/-- Rounding to the nearest integer, ties to the even one. -/
def roundHalfEven (y : ℚ) : Int :=
  if y - ⌊y⌋ < 1 / 2 then ⌊y⌋
  else if 1 / 2 < y - ⌊y⌋ then ⌊y⌋ + 1
  else if ⌊y⌋ % 2 = 0 then ⌊y⌋
  else ⌊y⌋ + 1

/-- The binary64 number nearest to `x`: `x` rounded to a multiple of `2 ^ (binade x - 52)`. -/
def toDouble (x : ℚ) : ℚ :=
  (roundHalfEven (x / (2 : ℚ) ^ (binade x - 52)) : ℚ) * (2 : ℚ) ^ (binade x - 52)

/-- `dailyPrice = discounted_price || final_price` as the number that is multiplied: the price
columns are decimals, the handler sees the binary64 numbers nearest to them, `||` takes the
discounted price unless it is `null` or `0`, and `null` multiplies as `0`. -/
def dailyPriceOf (final_price discounted_price : Option ℚ) : ℚ :=
  match discounted_price with
  | some d => if toDouble d ≠ 0 then toDouble d else (final_price.map toDouble).getD 0
  | none => (final_price.map toDouble).getD 0

/-- The digits of `x.toFixed(2)`, as a number of hundredths: with `x` the exact value of the
number, the integer `n` for which `n / 100 - |x|` is closest to zero, the larger one on a tie,
with the sign of `x`. -/
def toFixedHundredths (x : ℚ) : Int :=
  if 0 ≤ x then ⌊x * 100 + 1 / 2⌋ else -⌊-x * 100 + 1 / 2⌋

/-- `parseFloat(x.toFixed(2))`: the binary64 number nearest to the decimal that `toFixed(2)`
wrote. -/
def toFixed2 (x : ℚ) : ℚ := toDouble ((toFixedHundredths x : ℚ) / 100)

/-- `grandTotal = parseFloat((dailyPrice * rentalDays).toFixed(2))`, the product being a
binary64 multiplication. -/
def grandTotalOf (final_price discounted_price : Option ℚ) (rentalDays : Int) : ℚ :=
  toFixed2 (toDouble (dailyPriceOf final_price discounted_price * toDouble (rentalDays : ℚ)))

/-! ## The handlers -/

/-- A response carrying only a status code and a message. -/
def plain (code : Nat) (message : String) : Response :=
  { code := code, message := message, conflictingDates := none, rentalDetails := none }

/-- The `catch` block of either handler: `rollback()`, then the 500 response.  The rollback
restores the store `st0` the unit of work started from. -/
def caught (st0 : Store) (tx : List TxEvent) (message : String) : Outcome :=
  { response := plain 500 message, store := st0, tx := tx ++ [TxEvent.rollback] }

/-- The `UPDATE orders SET ... WHERE order_id = ?` of the rental-details handler. -/
def writeRentalDetails (order_id : Nat) (rs re : Int) (terms : Bool) (licenseImage : Option String)
    (rentalDays : Int) (grandTotal : ℚ) (o : Order) : Order :=
  if o.order_id = order_id then
    { o with
      rent_start_date := some rs
      rent_end_date := some re
      terms := some terms
      licenseImage := licenseImage
      status := "payment_pending"
      rental_days := some rentalDays
      grand_total := some grandTotal }
  else o

/-- The handler of `PATCH /:user_id/:vehicle_id/:order_id` (rent.js 41-181), run at instant
`now` on store `st`. -/
def finalizeBooking (throws : DbCall → Bool) (now : Int) (st : Store) (req : RentalRequest) :
    Outcome :=
  let licenseImage := req.file
  let accepted := isTermsAccepted req.terms
  match req.rent_start_date, req.rent_end_date with
  | some rs, some re =>
    if !accepted then
      { response := plain 400 "All rental details are required.", store := st, tx := [] }
    -- `typeof isTermsAccepted !== "boolean"` (rent.js 54) never holds: it is a `||` of two `===`
    else if throws DbCall.beginTransaction then
      caught st [] "Error updating rental details."
    else
      match dateValidation now rs re accepted with
      | some message =>
        { response := plain 400 message, store := st, tx := [TxEvent.begin] }
      | none =>
      let rentalDays := rentalDaysOf rs re
      if throws DbCall.conflictQuery then
        caught st [TxEvent.begin] "Error updating rental details."
      else
        let existingOrders := conflictQuery st.orders req.vehicle_id rs re
        if existingOrders.length > 0 then
          { response :=
              { code := 400
                message := "Vehicle is already rented during the requested period."
                conflictingDates := some existingOrders
                rentalDetails := none }
            store := st, tx := [TxEvent.begin] }
        else if throws DbCall.orderQuery then
          caught st [TxEvent.begin] "Error updating rental details."
        else
          match st.orders.filter (fun o => o.order_id == req.order_id) with
          | [] => { response := plain 404 "Order not found.", store := st, tx := [TxEvent.begin] }
          | o :: _ =>
            if hasRentalDetails o then
              { response :=
                  plain 400 "Order already has rental details. Cannot update finalized order."
                store := st, tx := [TxEvent.begin] }
            else if throws DbCall.priceQuery then
              caught st [TxEvent.begin] "Error updating rental details."
            else
              match st.vehicle_status.filter (fun v => v.vehicle_id == req.vehicle_id) with
              | [] =>
                { response := plain 404 "Vehicle pricing details not found.", store := st,
                  tx := [TxEvent.begin] }
              | p :: _ =>
                let grandTotal := grandTotalOf p.final_price p.discounted_price rentalDays
                if throws DbCall.updateOrder then
                  caught st [TxEvent.begin] "Error updating rental details."
                else
                  let st1 : Store :=
                    { st with
                      orders := st.orders.map
                        (writeRentalDetails req.order_id rs re accepted licenseImage rentalDays
                          grandTotal) }
                  if throws DbCall.commit then
                    caught st [TxEvent.begin] "Error updating rental details."
                  else
                    { response :=
                        { code := 200
                          message := "Rental details updated successfully."
                          conflictingDates := none
                          rentalDetails := some
                            { order_id := req.order_id
                              user_id := req.user_id
                              vehicle_id := req.vehicle_id
                              rent_start_date := rs
                              rent_end_date := re
                              rental_days := rentalDays
                              terms := accepted
                              licenseImage := licenseImage
                              status := "payment_pending"
                              grand_total := grandTotal } }
                      store := st1, tx := [TxEvent.begin, TxEvent.commit] }
  | _, _ => { response := plain 400 "All rental details are required.", store := st, tx := [] }

/-- The `UPDATE orders SET ... WHERE order_id = ?` of the COD handler. -/
def writeCod (order_id : Nat) (o : Order) : Order :=
  if o.order_id = order_id then
    { o with
      status := "completed"
      paid_status := JsVal.str "pending"
      delivered_status := some "not_delivered"
      transaction_uuid := some "N/A"
      payment_method := some "COD" }
  else o

/-- The `UPDATE vehicle_status SET availability = 1 WHERE vehicle_id = ?`. -/
def writeAvailable (vehicle_id : Nat) (v : VehicleStatus) : VehicleStatus :=
  if v.vehicle_id = vehicle_id then { v with availability := 1 } else v

/-- The handler of `PATCH /cod/:order_id` (rent.js 185-238) on store `st`.  The success
response also echoes `order_id`, `status`, `paid_status: 0` and `transaction_uuid`, which no
statement below reads. -/
def settleDeferred (throws : DbCall → Bool) (st : Store) (order_id : Nat) : Outcome :=
  if throws DbCall.beginTransaction then
    caught st [] "Error processing COD payment."
  else if throws DbCall.orderQuery then
    caught st [TxEvent.begin] "Error processing COD payment."
  else
    match st.orders.filter (fun o => o.order_id == order_id) with
    | [] => { response := plain 404 "Order not found.", store := st, tx := [TxEvent.begin] }
    | o :: _ =>
      if o.status == "completed" || o.paid_status == JsVal.num 1 then
        { response := plain 400 "Order is already completed or paid.", store := st,
          tx := [TxEvent.begin] }
      else if throws DbCall.updateOrder then
        caught st [TxEvent.begin] "Error processing COD payment."
      else
        let st1 : Store := { st with orders := st.orders.map (writeCod order_id) }
        if throws DbCall.updateVehicle then
          caught st [TxEvent.begin] "Error processing COD payment."
        else
          let st2 : Store :=
            { st1 with vehicle_status := st1.vehicle_status.map (writeAvailable o.vehicle_id) }
          if throws DbCall.commit then
            caught st [TxEvent.begin] "Error processing COD payment."
          else
            { response := plain 200
                "Order updated successfully with COD payment, and vehicle is now available."
              store := st2, tx := [TxEvent.begin, TxEvent.commit] }

/-! ## The no-double-booking property -/

/-- A status whose dates count as booked: `completed`, `payment_pending` or `draft`. -/
def blocking (status : String) : Bool :=
  status == "completed" || status == "payment_pending" || status == "draft"

/-- Both rows store an interval, and the two closed intervals share an instant. -/
def overlaps (a b : Order) : Bool :=
  match a.rent_start_date, a.rent_end_date, b.rent_start_date, b.rent_end_date with
  | some s1, some e1, some s2, some e2 =>
    decide (s1 ≤ e1 ∧ s2 ≤ e2 ∧ s1 ≤ e2 ∧ s2 ≤ e1)
  | _, _, _, _ => false

/-- No two distinct reservations of one vehicle, both with a blocking status, overlap. -/
def NoDoubleBooking (st : Store) : Prop :=
  ∀ a ∈ st.orders, ∀ b ∈ st.orders, a.order_id ≠ b.order_id → a.vehicle_id = b.vehicle_id →
    blocking a.status = true → blocking b.status = true → overlaps a b = false

instance (st : Store) : Decidable (NoDoubleBooking st) := by
  unfold NoDoubleBooking
  infer_instance

/-! ## The price rule as the specification words it -/

/-- The effective daily rate in the specification's words: the discounted price when it is
present and non-zero, the final price otherwise. -/
def effectiveDailyRate (finalPrice : ℚ) (discountedPrice : Option ℚ) : ℚ :=
  match discountedPrice with
  | some d => if d = 0 then finalPrice else d
  | none => finalPrice

/-! ## Example data -/

/-- An order row as created upstream: no rental details, nothing paid. -/
def blankOrder (order_id vehicle_id : Nat) (status : String) : Order :=
  { order_id := order_id
    vehicle_id := vehicle_id
    rent_start_date := none
    rent_end_date := none
    terms := none
    licenseImage := none
    status := status
    rental_days := none
    grand_total := none
    paid_status := JsVal.num 0
    delivered_status := none
    transaction_uuid := none
    payment_method := none }

/-- 2024-06-01T00:00:00Z, in milliseconds. -/
def jun1 : Int := 1717200000000

/-- 2024-06-02T00:00:00Z, in milliseconds. -/
def jun2 : Int := 1717286400000

/-- 2024-06-03T00:00:00Z, in milliseconds. -/
def jun3 : Int := 1717372800000

/-- 2024-06-04T00:00:00Z, in milliseconds. -/
def jun4 : Int := 1717459200000

/-- 2024-06-05T00:00:00Z, in milliseconds. -/
def jun5 : Int := 1717545600000

/-- 2024-05-01T00:00:00Z, in milliseconds: the current instant of the examples. -/
def may1 : Int := 1714521600000

/-- Order 1 holds vehicle 1 from 1 June to 3 June, finalized and awaiting payment. -/
def bookedOrder : Order :=
  { blankOrder 1 1 "payment_pending" with
    rent_start_date := some jun1
    rent_end_date := some jun3
    terms := some true
    licenseImage := some "uploads/rent_driving_license/licenseImage1_a.png"
    rental_days := some 2
    grand_total := some 80 }

/-- Vehicle 1 costs 50 a day, discounted to 40. -/
def vehicle1Price : VehicleStatus :=
  { vehicle_id := 1, final_price := some 50, discounted_price := some 40, availability := 0 }

/-- Vehicle 2 costs 100 a day, with no discount. -/
def vehicle2Price : VehicleStatus :=
  { vehicle_id := 2, final_price := some 100, discounted_price := none, availability := 0 }

/-- The pricing rows of the examples. -/
def priceList : List VehicleStatus := [vehicle1Price, vehicle2Price]

/-- Vehicle 1 is booked by order 1; order 2 is a draft for the same vehicle. -/
def bookedStore : Store :=
  { orders := [bookedOrder, blankOrder 2 1 "draft"], vehicle_status := priceList }

/-- A single draft order 2 for vehicle 1. -/
def draftStore : Store :=
  { orders := [blankOrder 2 1 "draft"], vehicle_status := priceList }

/-- A single canceled order 3 for vehicle 1. -/
def canceledStore : Store :=
  { orders := [blankOrder 3 1 "canceled"], vehicle_status := priceList }

/-- A request for order 2 with terms accepted and a licence image. -/
def rentalRequest (vehicle_id order_id : Nat) (rs re : Int) (file : Option String) :
    RentalRequest :=
  { user_id := 7
    vehicle_id := vehicle_id
    order_id := order_id
    rent_start_date := some rs
    rent_end_date := some re
    terms := BodyTerms.str "true"
    file := file }

/-- Vehicle 1 carries a canceled and an expired reservation for 1 to 3 June; order 2 is a draft
for the same vehicle. -/
def lapsedStore : Store :=
  { orders :=
      [ { bookedOrder with order_id := 4, status := "canceled" },
        { bookedOrder with order_id := 5, status := "expired" },
        blankOrder 2 1 "draft" ]
    vehicle_status := priceList }

/-- A single reservation, order 6 of vehicle 1, finalized and awaiting payment. -/
def pendingStore : Store :=
  { orders := [{ bookedOrder with order_id := 6 }], vehicle_status := priceList }

/-- Vehicle 3 costs 99999999999999.99 a day, with no discount. -/
def costlyPrice : VehicleStatus :=
  { vehicle_id := 3
    final_price := some (9999999999999999 / 100)
    discounted_price := none
    availability := 0 }

/-- A single draft order 8 for vehicle 3. -/
def costlyStore : Store :=
  { orders := [blankOrder 8 3 "draft"], vehicle_status := [costlyPrice] }

/-! ## Sequences of later calls -/

/-- A later call of one of the two handlers. -/
inductive Call where
  | settle (throws : DbCall → Bool) (order_id : Nat)
  | finalize (throws : DbCall → Bool) (now : Int) (req : RentalRequest)

/-- The store a call leaves behind. -/
def runCall (st : Store) : Call → Store
  | Call.settle throws order_id => (settleDeferred throws st order_id).store
  | Call.finalize throws now req => (finalizeBooking throws now st req).store

/-- The store after a sequence of calls, in order. -/
def runCalls (st : Store) : List Call → Store
  | [] => st
  | c :: cs => runCalls (runCall st c) cs

/-- The call is a rental-details request for order `order_id` that is answered with 200 on
store `st`. -/
def refinalizes (order_id : Nat) (st : Store) : Call → Bool
  | Call.settle _ _ => false
  | Call.finalize throws now req =>
    req.order_id == order_id && (finalizeBooking throws now st req).response.code == 200

/-- No call of the sequence, run from store `st`, is a successful rental-details request for
order `order_id`. -/
def noRefinalize (order_id : Nat) : Store → List Call → Bool
  | _, [] => true
  | st, c :: cs => !refinalizes order_id st c && noRefinalize order_id (runCall st c) cs

/-! ## Helper lemmas -/

theorem boundDateCondition_some (cs ce rs re : Int) :
    boundDateCondition (some cs) (some ce) rs re =
      some (decide ((rs ≤ cs ∧ cs ≤ re) ∨ (rs ≤ ce ∧ ce ≤ re) ∨
        (cs ≤ rs ∧ rs ≤ ce) ∨ (cs ≤ re ∧ re ≤ ce))) := by
  simp only [boundDateCondition, dateCondition, sqlBetween, sqlLe]
  by_cases h1 : rs ≤ cs <;> by_cases h2 : cs ≤ re <;> by_cases h3 : rs ≤ ce <;>
    by_cases h4 : ce ≤ re <;> by_cases h5 : cs ≤ rs <;> by_cases h6 : re ≤ ce <;>
    simp [h1, h2, h3, h4, h5, h6, sqlAnd, sqlOr]

theorem ceilDiv_pos_iff (a b : Int) (hb : 0 < b) : 0 < ceilDiv a b ↔ 0 < a := by
  unfold ceilDiv
  constructor
  · intro h
    by_contra ha
    have : 0 ≤ -a := by omega
    have := Int.ediv_nonneg this hb.le
    omega
  · intro h
    have : (-a) / b < 0 := Int.ediv_neg' (by omega) hb
    omega

theorem ceilDiv_eq_ceil (a b : Int) (hb : 0 < b) : ceilDiv a b = ⌈(a : ℚ) / (b : ℚ)⌉ := by
  unfold ceilDiv
  have hbq : (0 : ℚ) < (b : ℚ) := by exact_mod_cast hb
  have hmod := Int.emod_add_ediv (-a) b
  have h0 := Int.emod_nonneg (-a) hb.ne'
  have h1 := Int.emod_lt_of_pos (-a) hb
  symm
  rw [Int.ceil_eq_iff, div_le_iff₀ hbq, lt_div_iff₀ hbq]
  constructor
  · have : (-(-a / b) - 1) * b < a := by linarith
    exact_mod_cast this
  · have : a ≤ (-(-a / b)) * b := by linarith
    exact_mod_cast this

theorem roundHalfEven_intCast (k : Int) : roundHalfEven (k : ℚ) = k := by
  simp [roundHalfEven]

theorem abs_roundHalfEven_sub_le (y : ℚ) : |(roundHalfEven y : ℚ) - y| ≤ 1 / 2 := by
  have h1 := Int.floor_le y
  have h2 := Int.lt_floor_add_one y
  unfold roundHalfEven
  rw [abs_le]
  split_ifs <;> push_cast <;> constructor <;> linarith

theorem roundHalfEven_eq_of_abs_lt (y : ℚ) (k : Int) (h : |y - k| < 1 / 2) :
    roundHalfEven y = k := by
  rw [abs_lt] at h
  obtain ⟨h1, h2⟩ := h
  by_cases hk : (k : ℚ) ≤ y
  · have hf : ⌊y⌋ = k := by
      rw [Int.floor_eq_iff]
      constructor <;> linarith
    unfold roundHalfEven
    rw [hf, if_pos (by linarith)]
  · have hf : ⌊y⌋ = k - 1 := by
      rw [Int.floor_eq_iff]
      push_cast
      constructor <;> linarith
    unfold roundHalfEven
    rw [hf]
    push_cast
    rw [if_neg (by linarith), if_pos (by linarith)]
    ring

theorem toFixedHundredths_eq_of_abs_lt (x : ℚ) (m : Int) (h : |x - m / 100| < 1 / 200) :
    toFixedHundredths x = m := by
  rw [abs_lt] at h
  obtain ⟨h1, h2⟩ := h
  unfold toFixedHundredths
  split
  · rw [Int.floor_eq_iff]
    constructor <;> linarith
  · rw [neg_eq_iff_eq_neg, Int.floor_eq_iff]
    push_cast
    constructor <;> linarith

theorem binade_eq (x : ℚ) (e : Int) (he : -1022 ≤ e) (h1 : (2 : ℚ) ^ e ≤ |x|)
    (h2 : |x| < (2 : ℚ) ^ (e + 1)) : binade x = e := by
  have hpos : (0 : ℚ) < |x| := lt_of_lt_of_le (by positivity) h1
  have hle : e ≤ Int.log 2 |x| := by
    rw [← Int.zpow_le_iff_le_log (by norm_num) hpos]
    exact_mod_cast h1
  have hlt : Int.log 2 |x| < e + 1 := by
    rw [← Int.lt_zpow_iff_log_lt (by norm_num) hpos]
    exact_mod_cast h2
  unfold binade
  omega

theorem toDouble_eq (x : ℚ) (e k : Int) (he : -1022 ≤ e) (h1 : (2 : ℚ) ^ e ≤ |x|)
    (h2 : |x| < (2 : ℚ) ^ (e + 1)) (hk : |x / (2 : ℚ) ^ (e - 52) - k| < 1 / 2) :
    toDouble x = (k : ℚ) * (2 : ℚ) ^ (e - 52) := by
  unfold toDouble
  rw [binade_eq x e he h1 h2, roundHalfEven_eq_of_abs_lt _ k hk]

theorem abs_toDouble_sub_le (x : ℚ) (hx : (2 : ℚ) ^ (-1022 : Int) ≤ |x|) :
    |toDouble x - x| ≤ |x| / 2 ^ 53 := by
  have hpos : (0 : ℚ) < |x| := lt_of_lt_of_le (by positivity) hx
  have hlog : (2 : ℚ) ^ Int.log 2 |x| ≤ |x| := by
    have := Int.zpow_log_le_self (b := 2) (r := |x|) (by norm_num) hpos
    exact_mod_cast this
  have hge : -1022 ≤ Int.log 2 |x| := by
    rw [← Int.zpow_le_iff_le_log (by norm_num) hpos]
    exact_mod_cast hx
  have hb : binade x = Int.log 2 |x| := by
    unfold binade
    omega
  have hu : (0 : ℚ) < (2 : ℚ) ^ (Int.log 2 |x| - 52) := by positivity
  have hsplit : (2 : ℚ) ^ (Int.log 2 |x| - 52) = (2 : ℚ) ^ Int.log 2 |x| / 2 ^ 52 := by
    rw [zpow_sub₀ (by norm_num)]
    norm_num
  have hr := abs_roundHalfEven_sub_le (x / (2 : ℚ) ^ (Int.log 2 |x| - 52))
  have hfact : toDouble x - x =
      ((roundHalfEven (x / (2 : ℚ) ^ (Int.log 2 |x| - 52)) : ℚ) -
        x / (2 : ℚ) ^ (Int.log 2 |x| - 52)) * (2 : ℚ) ^ (Int.log 2 |x| - 52) := by
    unfold toDouble
    rw [hb]
    field_simp
  rw [hfact, abs_mul, abs_of_pos hu]
  calc |(roundHalfEven (x / (2 : ℚ) ^ (Int.log 2 |x| - 52)) : ℚ) -
          x / (2 : ℚ) ^ (Int.log 2 |x| - 52)| * (2 : ℚ) ^ (Int.log 2 |x| - 52)
      ≤ 1 / 2 * (2 : ℚ) ^ (Int.log 2 |x| - 52) := by
        exact mul_le_mul_of_nonneg_right hr hu.le
    _ = (2 : ℚ) ^ Int.log 2 |x| / 2 ^ 53 := by rw [hsplit]; ring
    _ ≤ |x| / 2 ^ 53 := by
        exact div_le_div_of_nonneg_right hlog (by positivity)

theorem toDouble_zero : toDouble 0 = 0 := by
  simp [toDouble, roundHalfEven]

theorem toDouble_intCast (m : Int) (h : |m| < 2 ^ 53) : toDouble (m : ℚ) = m := by
  by_cases hm : m = 0
  · subst hm
    simpa using toDouble_zero
  have habs : (1 : ℚ) ≤ |(m : ℚ)| := by
    have : (1 : Int) ≤ |m| := Int.one_le_abs hm
    exact_mod_cast this
  have hpos : (0 : ℚ) < |(m : ℚ)| := by linarith
  have hlo : (0 : Int) ≤ Int.log 2 |(m : ℚ)| := by
    rw [← Int.zpow_le_iff_le_log (by norm_num) hpos]
    simpa using habs
  have hhi : Int.log 2 |(m : ℚ)| < 53 := by
    rw [← Int.lt_zpow_iff_log_lt (by norm_num) hpos]
    have h53 : |(m : ℚ)| < (2 : ℚ) ^ (53 : ℕ) := by exact_mod_cast h
    have hz : ((2 : ℕ) : ℚ) ^ (53 : Int) = (2 : ℚ) ^ (53 : ℕ) := by norm_num
    rw [hz]
    exact h53
  have hb : binade (m : ℚ) = Int.log 2 |(m : ℚ)| := by
    unfold binade
    omega
  obtain ⟨k, hk⟩ : ∃ k : ℕ, Int.log 2 |(m : ℚ)| - 52 = -(k : Int) :=
    ⟨(52 - Int.log 2 |(m : ℚ)|).toNat, by omega⟩
  unfold toDouble
  rw [hb, hk, zpow_neg, zpow_natCast]
  have hcast : (m : ℚ) / ((2 : ℚ) ^ k)⁻¹ = ((m * 2 ^ k : Int) : ℚ) := by
    push_cast
    field_simp
  rw [hcast, roundHalfEven_intCast]
  push_cast
  field_simp

theorem toFixedHundredths_zero : toFixedHundredths 0 = 0 := by
  norm_num [toFixedHundredths]

theorem toFixedHundredths_product (n d : Int) (hd : 1 ≤ d)
    (hb : |(n : ℚ) / 100 * (d : ℚ)| ≤ 10 ^ 13) :
    toFixedHundredths (toDouble (toDouble ((n : ℚ) / 100) * toDouble (d : ℚ))) = n * d := by
  by_cases hn : n = 0
  · subst hn
    simp [toDouble_zero, toFixedHundredths_zero]
  have hdq : (1 : ℚ) ≤ (d : ℚ) := by exact_mod_cast hd
  have hnq : (1 : ℚ) ≤ |(n : ℚ)| := by
    have : (1 : Int) ≤ |n| := Int.one_le_abs hn
    exact_mod_cast this
  have hp : (1 : ℚ) / 100 ≤ |(n : ℚ) / 100| := by
    rw [abs_div, abs_of_pos (by norm_num : (0 : ℚ) < 100)]
    linarith
  have hP : |(n : ℚ) / 100 * (d : ℚ)| = |(n : ℚ) / 100| * (d : ℚ) := by
    rw [abs_mul, abs_of_pos (by linarith : (0 : ℚ) < (d : ℚ))]
  rw [hP] at hb
  have hdle : (d : ℚ) ≤ 10 ^ 15 := by nlinarith
  have hdd : toDouble (d : ℚ) = d := by
    apply toDouble_intCast
    have h1 : (d : ℚ) < 2 ^ 53 := by
      have : (10 : ℚ) ^ 15 < 2 ^ 53 := by norm_num
      linarith
    have h2 : d < 2 ^ 53 := by exact_mod_cast h1
    rw [abs_of_pos (by omega)]
    exact h2
  have hsmall : (2 : ℚ) ^ (-1022 : Int) ≤ 1 / 200 := by
    rw [zpow_neg]
    norm_num
  have ha := abs_toDouble_sub_le ((n : ℚ) / 100) (by linarith)
  have hPlo : (1 : ℚ) / 100 ≤ |(n : ℚ) / 100| * (d : ℚ) := by nlinarith [abs_nonneg ((n : ℚ) / 100)]
  have hy1 : |toDouble ((n : ℚ) / 100) * (d : ℚ) - (n : ℚ) / 100 * (d : ℚ)| ≤
      |(n : ℚ) / 100| * (d : ℚ) / 2 ^ 53 := by
    rw [← sub_mul, abs_mul, abs_of_pos (by linarith : (0 : ℚ) < (d : ℚ))]
    calc |toDouble ((n : ℚ) / 100) - (n : ℚ) / 100| * (d : ℚ)
        ≤ |(n : ℚ) / 100| / 2 ^ 53 * (d : ℚ) := mul_le_mul_of_nonneg_right ha (by linarith)
      _ = |(n : ℚ) / 100| * (d : ℚ) / 2 ^ 53 := by ring
  have hyabs : |toDouble ((n : ℚ) / 100) * (d : ℚ)| ≤
      |(n : ℚ) / 100| * (d : ℚ) + |(n : ℚ) / 100| * (d : ℚ) / 2 ^ 53 := by
    have := abs_sub_abs_le_abs_sub (toDouble ((n : ℚ) / 100) * (d : ℚ))
      ((n : ℚ) / 100 * (d : ℚ))
    rw [hP] at this
    linarith
  have hylo : |(n : ℚ) / 100| * (d : ℚ) - |(n : ℚ) / 100| * (d : ℚ) / 2 ^ 53 ≤
      |toDouble ((n : ℚ) / 100) * (d : ℚ)| := by
    have := abs_sub_abs_le_abs_sub ((n : ℚ) / 100 * (d : ℚ))
      (toDouble ((n : ℚ) / 100) * (d : ℚ))
    rw [hP, abs_sub_comm] at this
    linarith
  have hynorm : (2 : ℚ) ^ (-1022 : Int) ≤ |toDouble ((n : ℚ) / 100) * (d : ℚ)| := by
    have : (1 : ℚ) / 200 ≤ |(n : ℚ) / 100| * (d : ℚ) - |(n : ℚ) / 100| * (d : ℚ) / 2 ^ 53 := by
      have h53 : |(n : ℚ) / 100| * (d : ℚ) / 2 ^ 53 ≤ |(n : ℚ) / 100| * (d : ℚ) / 2 := by
        apply div_le_div_of_nonneg_left (by linarith) (by norm_num) (by norm_num)
      linarith
    linarith
  have hx := abs_toDouble_sub_le (toDouble ((n : ℚ) / 100) * (d : ℚ)) hynorm
  rw [hdd]
  apply toFixedHundredths_eq_of_abs_lt
  have htarget : ((n * d : Int) : ℚ) / 100 = (n : ℚ) / 100 * (d : ℚ) := by
    push_cast
    ring
  rw [htarget]
  have htri := abs_sub_le (toDouble (toDouble ((n : ℚ) / 100) * (d : ℚ)))
    (toDouble ((n : ℚ) / 100) * (d : ℚ)) ((n : ℚ) / 100 * (d : ℚ))
  have hx2 : |toDouble ((n : ℚ) / 100) * (d : ℚ)| / 2 ^ 53 ≤
      (|(n : ℚ) / 100| * (d : ℚ) + |(n : ℚ) / 100| * (d : ℚ) / 2 ^ 53) / 2 ^ 53 :=
    div_le_div_of_nonneg_right hyabs (by positivity)
  have hnum : ((10 : ℚ) ^ 13 + (10 : ℚ) ^ 13 / 2 ^ 53) / 2 ^ 53 + (10 : ℚ) ^ 13 / 2 ^ 53 <
      1 / 200 := by norm_num
  have hmono1 : (|(n : ℚ) / 100| * (d : ℚ) + |(n : ℚ) / 100| * (d : ℚ) / 2 ^ 53) / 2 ^ 53 ≤
      ((10 : ℚ) ^ 13 + (10 : ℚ) ^ 13 / 2 ^ 53) / 2 ^ 53 := by
    apply div_le_div_of_nonneg_right _ (by positivity)
    have : |(n : ℚ) / 100| * (d : ℚ) / 2 ^ 53 ≤ (10 : ℚ) ^ 13 / 2 ^ 53 :=
      div_le_div_of_nonneg_right hb (by positivity)
    linarith
  have hmono2 : |(n : ℚ) / 100| * (d : ℚ) / 2 ^ 53 ≤ (10 : ℚ) ^ 13 / 2 ^ 53 :=
    div_le_div_of_nonneg_right hb (by positivity)
  linarith

theorem finalizeBooking_cases (throws : DbCall → Bool) (now : Int) (st : Store)
    (req : RentalRequest) :
    ((finalizeBooking throws now st req).store = st ∧
      (finalizeBooking throws now st req).response.code ≠ 200) ∨
    ∃ rs re o rest p rest1,
      req.rent_start_date = some rs ∧ req.rent_end_date = some re ∧
      isTermsAccepted req.terms = true ∧
      dateValidation now rs re true = none ∧
      conflictQuery st.orders req.vehicle_id rs re = [] ∧
      st.orders.filter (fun o => o.order_id == req.order_id) = o :: rest ∧
      hasRentalDetails o = false ∧
      st.vehicle_status.filter (fun v => v.vehicle_id == req.vehicle_id) = p :: rest1 ∧
      (finalizeBooking throws now st req).store =
        { st with
          orders := st.orders.map
            (writeRentalDetails req.order_id rs re true req.file (rentalDaysOf rs re)
              (grandTotalOf p.final_price p.discounted_price (rentalDaysOf rs re))) } ∧
      (finalizeBooking throws now st req).response.code = 200 ∧
      (finalizeBooking throws now st req).tx = [TxEvent.begin, TxEvent.commit] := by
  rcases hs : req.rent_start_date with _ | rs
  · left; simp [finalizeBooking, hs, plain]
  rcases he : req.rent_end_date with _ | re
  · left; simp [finalizeBooking, hs, he, plain]
  by_cases hacc : isTermsAccepted req.terms = true
  swap
  · left; simp [finalizeBooking, hs, he, hacc, plain]
  by_cases hb : throws DbCall.beginTransaction = true
  · left; simp [finalizeBooking, hs, he, hacc, hb, caught, plain]
  rcases hdv : dateValidation now rs re true with _ | msg
  swap
  · left; simp [finalizeBooking, hs, he, hacc, hb, hdv, plain]
  by_cases hc : throws DbCall.conflictQuery = true
  · left; simp [finalizeBooking, hs, he, hacc, hb, hdv, hc, caught, plain]
  rcases hcq : conflictQuery st.orders req.vehicle_id rs re with _ | ⟨c, cs⟩
  swap
  · left; simp [finalizeBooking, hs, he, hacc, hb, hdv, hc, hcq]
  by_cases ho : throws DbCall.orderQuery = true
  · left; simp [finalizeBooking, hs, he, hacc, hb, hdv, hc, hcq, ho, caught, plain]
  rcases hfo : st.orders.filter (fun o => o.order_id == req.order_id) with _ | ⟨o, rest⟩
  · left; simp [finalizeBooking, hs, he, hacc, hb, hdv, hc, hcq, ho, hfo, plain]
  by_cases hrd : hasRentalDetails o = true
  · left; simp [finalizeBooking, hs, he, hacc, hb, hdv, hc, hcq, ho, hfo, hrd, plain]
  by_cases hp : throws DbCall.priceQuery = true
  · left; simp [finalizeBooking, hs, he, hacc, hb, hdv, hc, hcq, ho, hfo, hrd, hp, caught, plain]
  rcases hfp : st.vehicle_status.filter (fun v => v.vehicle_id == req.vehicle_id) with
    _ | ⟨p, rest1⟩
  · left; simp [finalizeBooking, hs, he, hacc, hb, hdv, hc, hcq, ho, hfo, hrd, hp, hfp, plain]
  by_cases hu : throws DbCall.updateOrder = true
  · left
    simp [finalizeBooking, hs, he, hacc, hb, hdv, hc, hcq, ho, hfo, hrd, hp, hfp, hu, caught,
      plain]
  by_cases hcm : throws DbCall.commit = true
  · left
    simp [finalizeBooking, hs, he, hacc, hb, hdv, hc, hcq, ho, hfo, hrd, hp, hfp, hu, hcm,
      caught, plain]
  right
  refine ⟨rs, re, o, rest, p, rest1, rfl, rfl, hacc, hdv, hcq, hfo, by simpa using hrd, hfp,
    ?_, ?_, ?_⟩ <;>
  simp [finalizeBooking, hs, he, hacc, hb, hdv, hc, hcq, ho, hfo, hrd, hp, hfp, hu, hcm]

theorem settleDeferred_cases (throws : DbCall → Bool) (st : Store) (order_id : Nat) :
    ((settleDeferred throws st order_id).store = st ∧
      (settleDeferred throws st order_id).response.code ≠ 200) ∨
    ∃ o rest,
      st.orders.filter (fun o => o.order_id == order_id) = o :: rest ∧
      o.status ≠ "completed" ∧ o.paid_status ≠ JsVal.num 1 ∧
      (settleDeferred throws st order_id).store =
        { orders := st.orders.map (writeCod order_id)
          vehicle_status := st.vehicle_status.map (writeAvailable o.vehicle_id) } ∧
      (settleDeferred throws st order_id).response.code = 200 ∧
      (settleDeferred throws st order_id).tx = [TxEvent.begin, TxEvent.commit] := by
  by_cases hb : throws DbCall.beginTransaction = true
  · left; simp [settleDeferred, hb, caught, plain]
  by_cases ho : throws DbCall.orderQuery = true
  · left; simp [settleDeferred, hb, ho, caught, plain]
  rcases hfo : st.orders.filter (fun o => o.order_id == order_id) with _ | ⟨o, rest⟩
  · left; simp [settleDeferred, hb, ho, hfo, plain]
  by_cases hst : o.status = "completed"
  · left; simp [settleDeferred, hb, ho, hfo, hst, plain]
  by_cases hpd : o.paid_status = JsVal.num 1
  · left; simp [settleDeferred, hb, ho, hfo, hst, hpd, plain]
  by_cases hu : throws DbCall.updateOrder = true
  · left; simp [settleDeferred, hb, ho, hfo, hst, hpd, hu, caught, plain]
  by_cases hv : throws DbCall.updateVehicle = true
  · left; simp [settleDeferred, hb, ho, hfo, hst, hpd, hu, hv, caught, plain]
  by_cases hcm : throws DbCall.commit = true
  · left; simp [settleDeferred, hb, ho, hfo, hst, hpd, hu, hv, hcm, caught, plain]
  right
  refine ⟨o, rest, hfo, hst, hpd, ?_, ?_, ?_⟩ <;>
  simp [settleDeferred, hb, ho, hfo, hst, hpd, hu, hv, hcm, plain]

theorem dateValidation_none_iff (now rs re : Int) :
    dateValidation now rs re true = none ↔ (now ≤ rs ∧ now ≤ re ∧ rs < re) := by
  have hpos := ceilDiv_pos_iff (re - rs) msPerDay (by decide)
  unfold dateValidation rentalDaysOf
  by_cases h1 : rs < now
  · simp [h1]
  by_cases h2 : re < now
  · simp [h2]
  by_cases h3 : ceilDiv (re - rs) msPerDay ≤ 0
  · simp [h1, h2, h3]; omega
  · simp [h1, h2, h3]; omega

theorem rentalDaysOf_pos (rs re : Int) (h : rs < re) : 1 ≤ rentalDaysOf rs re := by
  have hpos := (ceilDiv_pos_iff (re - rs) msPerDay (by decide)).2 (by omega)
  unfold rentalDaysOf
  omega

theorem statusCondition_of_blocking (s : String)
    (h : s = "completed" ∨ s = "payment_pending" ∨ s = "draft") : statusCondition s = true := by
  rcases h with h | h | h <;> subst h <;> decide

theorem statusCondition_of_terminal (s : String) (h : s = "canceled" ∨ s = "expired") :
    statusCondition s = false := by
  rcases h with h | h <;> subst h <;> decide

theorem finalizeBooking_ok (throws : DbCall → Bool) (now : Int) (st : Store) (req : RentalRequest)
    (rs re : Int) (o : Order) (rest : List Order) (p : VehicleStatus) (rest1 : List VehicleStatus)
    (hth : ∀ c, throws c = false)
    (hs : req.rent_start_date = some rs) (he : req.rent_end_date = some re)
    (hacc : isTermsAccepted req.terms = true)
    (hdv : dateValidation now rs re true = none)
    (hcq : conflictQuery st.orders req.vehicle_id rs re = [])
    (hfo : st.orders.filter (fun o => o.order_id == req.order_id) = o :: rest)
    (hrd : hasRentalDetails o = false)
    (hfp : st.vehicle_status.filter (fun v => v.vehicle_id == req.vehicle_id) = p :: rest1) :
    finalizeBooking throws now st req =
      { response :=
          { code := 200
            message := "Rental details updated successfully."
            conflictingDates := none
            rentalDetails := some
              { order_id := req.order_id
                user_id := req.user_id
                vehicle_id := req.vehicle_id
                rent_start_date := rs
                rent_end_date := re
                rental_days := rentalDaysOf rs re
                terms := true
                licenseImage := req.file
                status := "payment_pending"
                grand_total :=
                  grandTotalOf p.final_price p.discounted_price (rentalDaysOf rs re) } }
        store :=
          { st with
            orders := st.orders.map
              (writeRentalDetails req.order_id rs re true req.file (rentalDaysOf rs re)
                (grandTotalOf p.final_price p.discounted_price (rentalDaysOf rs re))) }
        tx := [TxEvent.begin, TxEvent.commit] } := by
  simp [finalizeBooking, hs, he, hacc, hdv, hcq, hfo, hrd, hfp, hth]

theorem writeCod_order_id (k : Nat) (o : Order) : (writeCod k o).order_id = o.order_id := by
  unfold writeCod
  split <;> rfl

theorem writeRentalDetails_order_id (k : Nat) (rs re : Int) (t : Bool) (f : Option String)
    (d : Int) (g : ℚ) (o : Order) :
    (writeRentalDetails k rs re t f d g o).order_id = o.order_id := by
  unfold writeRentalDetails
  split <;> rfl

theorem writeRentalDetails_vehicle_id (k : Nat) (rs re : Int) (t : Bool) (f : Option String)
    (d : Int) (g : ℚ) (o : Order) :
    (writeRentalDetails k rs re t f d g o).vehicle_id = o.vehicle_id := by
  unfold writeRentalDetails
  split <;> rfl

theorem filter_map_writeCod (k j : Nat) (l : List Order) :
    (l.map (writeCod k)).filter (fun o => o.order_id == j) =
      (l.filter (fun o => o.order_id == j)).map (writeCod k) := by
  induction l with
  | nil => rfl
  | cons a l ih =>
    simp only [List.map_cons, List.filter_cons, writeCod_order_id]
    split <;> simp [ih]

theorem filter_map_writeRentalDetails (k j : Nat) (rs re : Int) (t : Bool) (f : Option String)
    (d : Int) (g : ℚ) (l : List Order) :
    (l.map (writeRentalDetails k rs re t f d g)).filter (fun o => o.order_id == j) =
      (l.filter (fun o => o.order_id == j)).map (writeRentalDetails k rs re t f d g) := by
  induction l with
  | nil => rfl
  | cons a l ih =>
    simp only [List.map_cons, List.filter_cons, writeRentalDetails_order_id]
    split <;> simp [ih]

theorem conflictQuery_eq_nil_of_terminal (orders : List Order) (v : Nat) (rs re : Int)
    (h : ∀ x ∈ orders, x.vehicle_id = v →
      boundDateCondition x.rent_start_date x.rent_end_date rs re = some true →
      x.status = "canceled" ∨ x.status = "expired") :
    conflictQuery orders v rs re = [] := by
  unfold conflictQuery
  rw [List.map_eq_nil_iff, List.filter_eq_nil_iff]
  intro x hx hsel
  simp only [conflictWhere, Bool.and_eq_true, beq_iff_eq] at hsel
  have hterm := h x hx hsel.1.1 hsel.2
  rw [statusCondition_of_terminal x.status hterm] at hsel
  exact Bool.false_ne_true hsel.1.2

theorem hasRentalDetails_writeRentalDetails (k : Nat) (rs re : Int) (path : String) (d : Int)
    (g : ℚ) (o : Order) (hid : o.order_id = k) (hpath : path ≠ "") :
    hasRentalDetails (writeRentalDetails k rs re true (some path) d g o) = true := by
  simp [hasRentalDetails, writeRentalDetails, hid, truthyBool, truthyStr, hpath]

theorem finalizeBooking_rejects_of_hasRentalDetails (throws : DbCall → Bool) (now : Int)
    (st : Store) (req : RentalRequest) (o : Order) (rest : List Order)
    (hfo : st.orders.filter (fun o => o.order_id == req.order_id) = o :: rest)
    (hrd : hasRentalDetails o = true) :
    (finalizeBooking throws now st req).response.code ≠ 200 ∧
    (finalizeBooking throws now st req).store = st := by
  rcases finalizeBooking_cases throws now st req with h | h
  · exact ⟨h.2, h.1⟩
  · obtain ⟨rs, re, o1, rest2, p, rest1, _, _, _, _, _, hfo1, hrd1, _⟩ := h
    rw [hfo] at hfo1
    obtain ⟨hoo, -⟩ := List.cons.inj hfo1
    subst hoo
    rw [hrd] at hrd1
    exact absurd hrd1 (by decide)

theorem blocking_iff (s : String) :
    blocking s = true ↔ (s = "completed" ∨ s = "payment_pending" ∨ s = "draft") := by
  simp [blocking, or_assoc]

theorem no_overlap_of_conflictQuery_nil (orders : List Order) (v : Nat) (rs re : Int)
    (hcq : conflictQuery orders v rs re = []) (b : Order) (hb : b ∈ orders)
    (hv : b.vehicle_id = v) (hbl : blocking b.status = true) (s2 e2 : Int)
    (hs2 : b.rent_start_date = some s2) (he2 : b.rent_end_date = some e2) :
    ¬ (rs ≤ e2 ∧ s2 ≤ re) := by
  intro hov
  have hsel : conflictWhere v rs re b = true := by
    have hfour : (rs ≤ s2 ∧ s2 ≤ re) ∨ (rs ≤ e2 ∧ e2 ≤ re) ∨ (s2 ≤ rs ∧ rs ≤ e2) ∨
        (s2 ≤ re ∧ re ≤ e2) := by omega
    simp [conflictWhere, hv, statusCondition_of_blocking b.status ((blocking_iff _).1 hbl),
      hs2, he2, boundDateCondition_some, hfour]
  have hmem : (b.rent_start_date, b.rent_end_date) ∈ conflictQuery orders v rs re := by
    unfold conflictQuery
    exact List.mem_map.2 ⟨b, List.mem_filter.2 ⟨hb, hsel⟩, rfl⟩
  rw [hcq] at hmem
  cases hmem

/-- When every row of the requested reservation belongs to the vehicle named in the URL, the
rental-details handler preserves the no-double-booking property, whatever it answers. -/
theorem finalizeBooking_preserves_noDoubleBooking (throws : DbCall → Bool) (now : Int)
    (st : Store) (req : RentalRequest)
    (hveh : ∀ x ∈ st.orders, x.order_id = req.order_id → x.vehicle_id = req.vehicle_id)
    (hinv : NoDoubleBooking st) :
    NoDoubleBooking (finalizeBooking throws now st req).store := by
  rcases finalizeBooking_cases throws now st req with h | h
  · rw [h.1]; exact hinv
  obtain ⟨rs, re, o, rest, p, rest1, _, _, _, _, hcq, _, _, _, hst, _, _⟩ := h
  rw [hst]
  intro a1 ha1 b1 hb1 hne hsv hba hbb
  obtain ⟨a, ha, rfl⟩ := List.mem_map.1 ha1
  obtain ⟨b, hb, rfl⟩ := List.mem_map.1 hb1
  rw [writeRentalDetails_order_id, writeRentalDetails_order_id] at hne
  rw [writeRentalDetails_vehicle_id, writeRentalDetails_vehicle_id] at hsv
  by_cases hak : a.order_id = req.order_id
  · have hbk : b.order_id ≠ req.order_id := fun h => hne (hak.trans h.symm)
    have hbv : b.vehicle_id = req.vehicle_id := hsv ▸ hveh a ha hak
    have hbw : writeRentalDetails req.order_id rs re true req.file (rentalDaysOf rs re)
        (grandTotalOf p.final_price p.discounted_price (rentalDaysOf rs re)) b = b := by
      simp [writeRentalDetails, hbk]
    rw [hbw] at hbb ⊢
    rcases hs2 : b.rent_start_date with _ | s2
    · simp [overlaps, writeRentalDetails, hak, hs2]
    rcases he2 : b.rent_end_date with _ | e2
    · simp [overlaps, writeRentalDetails, hak, hs2, he2]
    have hno := no_overlap_of_conflictQuery_nil st.orders req.vehicle_id rs re hcq b hb hbv hbb
      s2 e2 hs2 he2
    simp only [overlaps, writeRentalDetails, hak, if_true, hs2, he2, decide_eq_false_iff_not]
    omega
  · have haw : writeRentalDetails req.order_id rs re true req.file (rentalDaysOf rs re)
        (grandTotalOf p.final_price p.discounted_price (rentalDaysOf rs re)) a = a := by
      simp [writeRentalDetails, hak]
    rw [haw] at hba ⊢
    by_cases hbk : b.order_id = req.order_id
    · have hav : a.vehicle_id = req.vehicle_id := hsv.trans (hveh b hb hbk)
      rcases hs2 : a.rent_start_date with _ | s2
      · simp [overlaps, writeRentalDetails, hbk, hs2]
      rcases he2 : a.rent_end_date with _ | e2
      · simp [overlaps, writeRentalDetails, hbk, hs2, he2]
      have hno := no_overlap_of_conflictQuery_nil st.orders req.vehicle_id rs re hcq a ha hav hba
        s2 e2 hs2 he2
      simp only [overlaps, writeRentalDetails, hbk, if_true, hs2, he2, decide_eq_false_iff_not]
      omega
    · have hbw : writeRentalDetails req.order_id rs re true req.file (rentalDaysOf rs re)
          (grandTotalOf p.final_price p.discounted_price (rentalDaysOf rs re)) b = b := by
        simp [writeRentalDetails, hbk]
      rw [hbw] at hbb ⊢
      exact hinv a ha b hb hne hsv hba hbb

/-- The transaction statements of the rental-details handler: a 500 response ends with
`rollback`, a 200 response is `begin, commit`, and every 400 or 404 response issues no
`rollback` (and no `commit`) at all. -/
theorem finalizeBooking_tx (throws : DbCall → Bool) (now : Int) (st : Store)
    (req : RentalRequest) :
    ((finalizeBooking throws now st req).response.code = 500 ∧
      ((finalizeBooking throws now st req).tx = [TxEvent.rollback] ∨
        (finalizeBooking throws now st req).tx = [TxEvent.begin, TxEvent.rollback])) ∨
    ((finalizeBooking throws now st req).response.code = 200 ∧
      (finalizeBooking throws now st req).tx = [TxEvent.begin, TxEvent.commit]) ∨
    (((finalizeBooking throws now st req).response.code = 400 ∨
        (finalizeBooking throws now st req).response.code = 404) ∧
      ((finalizeBooking throws now st req).tx = [] ∨
        (finalizeBooking throws now st req).tx = [TxEvent.begin])) := by
  rcases hs : req.rent_start_date with _ | rs
  · simp [finalizeBooking, hs, plain]
  rcases he : req.rent_end_date with _ | re
  · simp [finalizeBooking, hs, he, plain]
  by_cases hacc : isTermsAccepted req.terms = true
  swap
  · simp [finalizeBooking, hs, he, hacc, plain]
  by_cases hb : throws DbCall.beginTransaction = true
  · simp [finalizeBooking, hs, he, hacc, hb, caught, plain]
  rcases hdv : dateValidation now rs re true with _ | msg
  swap
  · simp [finalizeBooking, hs, he, hacc, hb, hdv, plain]
  by_cases hc : throws DbCall.conflictQuery = true
  · simp [finalizeBooking, hs, he, hacc, hb, hdv, hc, caught, plain]
  rcases hcq : conflictQuery st.orders req.vehicle_id rs re with _ | ⟨c, cs⟩
  swap
  · simp [finalizeBooking, hs, he, hacc, hb, hdv, hc, hcq]
  by_cases ho : throws DbCall.orderQuery = true
  · simp [finalizeBooking, hs, he, hacc, hb, hdv, hc, hcq, ho, caught, plain]
  rcases hfo : st.orders.filter (fun o => o.order_id == req.order_id) with _ | ⟨o, rest⟩
  · simp [finalizeBooking, hs, he, hacc, hb, hdv, hc, hcq, ho, hfo, plain]
  by_cases hrd : hasRentalDetails o = true
  · simp [finalizeBooking, hs, he, hacc, hb, hdv, hc, hcq, ho, hfo, hrd, plain]
  by_cases hp : throws DbCall.priceQuery = true
  · simp [finalizeBooking, hs, he, hacc, hb, hdv, hc, hcq, ho, hfo, hrd, hp, caught, plain]
  rcases hfp : st.vehicle_status.filter (fun v => v.vehicle_id == req.vehicle_id) with
    _ | ⟨p, rest1⟩
  · simp [finalizeBooking, hs, he, hacc, hb, hdv, hc, hcq, ho, hfo, hrd, hp, hfp, plain]
  by_cases hu : throws DbCall.updateOrder = true
  · simp [finalizeBooking, hs, he, hacc, hb, hdv, hc, hcq, ho, hfo, hrd, hp, hfp, hu, caught,
      plain]
  by_cases hcm : throws DbCall.commit = true
  · simp [finalizeBooking, hs, he, hacc, hb, hdv, hc, hcq, ho, hfo, hrd, hp, hfp, hu, hcm,
      caught, plain]
  simp [finalizeBooking, hs, he, hacc, hb, hdv, hc, hcq, ho, hfo, hrd, hp, hfp, hu, hcm]

/-- The transaction statements of the COD handler, as for the rental-details handler. -/
theorem settleDeferred_tx (throws : DbCall → Bool) (st : Store) (order_id : Nat) :
    ((settleDeferred throws st order_id).response.code = 500 ∧
      ((settleDeferred throws st order_id).tx = [TxEvent.rollback] ∨
        (settleDeferred throws st order_id).tx = [TxEvent.begin, TxEvent.rollback])) ∨
    ((settleDeferred throws st order_id).response.code = 200 ∧
      (settleDeferred throws st order_id).tx = [TxEvent.begin, TxEvent.commit]) ∨
    (((settleDeferred throws st order_id).response.code = 400 ∨
        (settleDeferred throws st order_id).response.code = 404) ∧
      (settleDeferred throws st order_id).tx = [TxEvent.begin]) := by
  by_cases hb : throws DbCall.beginTransaction = true
  · simp [settleDeferred, hb, caught, plain]
  by_cases ho : throws DbCall.orderQuery = true
  · simp [settleDeferred, hb, ho, caught, plain]
  rcases hfo : st.orders.filter (fun o => o.order_id == order_id) with _ | ⟨o, rest⟩
  · simp [settleDeferred, hb, ho, hfo, plain]
  by_cases hst : o.status = "completed"
  · simp [settleDeferred, hb, ho, hfo, hst, plain]
  by_cases hpd : o.paid_status = JsVal.num 1
  · simp [settleDeferred, hb, ho, hfo, hst, hpd, plain]
  by_cases hu : throws DbCall.updateOrder = true
  · simp [settleDeferred, hb, ho, hfo, hst, hpd, hu, caught, plain]
  by_cases hv : throws DbCall.updateVehicle = true
  · simp [settleDeferred, hb, ho, hfo, hst, hpd, hu, hv, caught, plain]
  by_cases hcm : throws DbCall.commit = true
  · simp [settleDeferred, hb, ho, hfo, hst, hpd, hu, hv, hcm, caught, plain]
  simp [settleDeferred, hb, ho, hfo, hst, hpd, hu, hv, hcm, plain]

theorem settled_runCall (order_id : Nat) (st : Store) (c : Call)
    (h : ∃ o rest, st.orders.filter (fun o => o.order_id == order_id) = o :: rest ∧
      o.status = "completed")
    (hc : refinalizes order_id st c = false) :
    ∃ o rest, (runCall st c).orders.filter (fun o => o.order_id == order_id) = o :: rest ∧
      o.status = "completed" := by
  obtain ⟨o, rest, hfo, hst⟩ := h
  have hoid : o.order_id = order_id := by
    have ho : o ∈ st.orders.filter (fun o => o.order_id == order_id) := by
      rw [hfo]; exact List.mem_cons_self _ _
    simpa using (List.mem_filter.1 ho).2
  cases c with
  | settle throws k =>
    rcases settleDeferred_cases throws st k with h | h
    · exact ⟨o, rest, by simp only [runCall]; rw [h.1]; exact hfo, hst⟩
    · obtain ⟨o1, rest1, _, _, _, hstore, _, _⟩ := h
      refine ⟨writeCod k o, rest.map (writeCod k), ?_, ?_⟩
      · simp only [runCall]
        rw [hstore]
        show List.filter _ (List.map _ st.orders) = _
        rw [filter_map_writeCod, hfo, List.map_cons]
      · unfold writeCod
        split
        · rfl
        · exact hst
  | finalize throws now req =>
    rcases finalizeBooking_cases throws now st req with h | h
    · exact ⟨o, rest, by simp only [runCall]; rw [h.1]; exact hfo, hst⟩
    · obtain ⟨rs, re, o1, rest1, p, rest2, _, _, _, _, _, _, _, _, hstore, hcode, _⟩ := h
      have hne : ¬ req.order_id = order_id := by
        intro heq
        simp [refinalizes, heq, hcode] at hc
      have hne2 : ¬ o.order_id = req.order_id := fun h => hne (h.symm.trans hoid)
      refine ⟨o, rest.map (writeRentalDetails req.order_id rs re true req.file
        (rentalDaysOf rs re) (grandTotalOf p.final_price p.discounted_price
          (rentalDaysOf rs re))), ?_, hst⟩
      simp only [runCall]
      rw [hstore]
      show List.filter _ (List.map _ st.orders) = _
      rw [filter_map_writeRentalDetails, hfo, List.map_cons]
      simp [writeRentalDetails, hne2]

theorem settled_runCalls (order_id : Nat) (calls : List Call) :
    ∀ st : Store,
      (∃ o rest, st.orders.filter (fun o => o.order_id == order_id) = o :: rest ∧
        o.status = "completed") →
      noRefinalize order_id st calls = true →
      ∃ o rest, (runCalls st calls).orders.filter (fun o => o.order_id == order_id) = o :: rest ∧
        o.status = "completed" := by
  induction calls with
  | nil => intro st h _; exact h
  | cons c cs ih =>
    intro st h hno
    simp only [noRefinalize, Bool.and_eq_true, Bool.not_eq_true'] at hno
    exact ih (runCall st c) (settled_runCall order_id st c h hno.1) hno.2

theorem settleDeferred_rejects_of_completed (throws : DbCall → Bool) (st : Store)
    (order_id : Nat)
    (h : ∃ o rest, st.orders.filter (fun o => o.order_id == order_id) = o :: rest ∧
      o.status = "completed") :
    (settleDeferred throws st order_id).response.code ≠ 200 ∧
    (settleDeferred throws st order_id).store = st ∧
    (settleDeferred noFaults st order_id).response =
      plain 400 "Order is already completed or paid." := by
  obtain ⟨o, rest, hfo, hst⟩ := h
  refine ⟨?_, ?_, ?_⟩
  · rcases settleDeferred_cases throws st order_id with h | h
    · exact h.2
    · obtain ⟨o1, rest1, hfo1, hne, _⟩ := h
      rw [hfo] at hfo1
      obtain ⟨hoo, -⟩ := List.cons.inj hfo1
      subst hoo
      exact absurd hst hne
  · rcases settleDeferred_cases throws st order_id with h | h
    · exact h.1
    · obtain ⟨o1, rest1, hfo1, hne, _⟩ := h
      rw [hfo] at hfo1
      obtain ⟨hoo, -⟩ := List.cons.inj hfo1
      subst hoo
      exact absurd hst hne
  · simp [settleDeferred, noFaults, hfo, hst]

theorem toDouble_costly_price : toDouble (9999999999999999 / 100) = 6399999999999999 / 64 := by
  rw [toDouble_eq (9999999999999999 / 100) 46 6399999999999999 (by norm_num)
    (by rw [abs_of_pos (by norm_num)]; norm_num)
    (by rw [abs_of_pos (by norm_num)]; norm_num)
    (by rw [abs_lt]; constructor <;> norm_num)]
  norm_num

theorem toDouble_costly_product : toDouble (6399999999999999 / 64 * 3) = 4799999999999999 / 16 := by
  rw [toDouble_eq (6399999999999999 / 64 * 3) 48 4799999999999999 (by norm_num)
    (by rw [abs_of_pos (by norm_num)]; norm_num)
    (by rw [abs_of_pos (by norm_num)]; norm_num)
    (by rw [abs_lt]; constructor <;> norm_num)]
  norm_num

theorem toFixedHundredths_costly : toFixedHundredths (4799999999999999 / 16) = 29999999999999994 :=
  toFixedHundredths_eq_of_abs_lt _ _ (by rw [abs_lt]; constructor <;> norm_num)

theorem toDouble_costly_parse : toDouble ((29999999999999994 : Int) / 100) = 4799999999999999 / 16 := by
  rw [toDouble_eq _ 48 4799999999999999 (by norm_num)
    (by rw [abs_of_pos (by norm_num)]; norm_num)
    (by rw [abs_of_pos (by norm_num)]; norm_num)
    (by rw [abs_lt]; constructor <;> norm_num)]
  norm_num

theorem toDouble_costly_exact : toDouble (29999999999999997 / 100) = 300000000000000 := by
  rw [toDouble_eq _ 48 4800000000000000 (by norm_num)
    (by rw [abs_of_pos (by norm_num)]; norm_num)
    (by rw [abs_of_pos (by norm_num)]; norm_num)
    (by rw [abs_lt]; constructor <;> norm_num)]
  norm_num

theorem toDouble_ne_zero (x : ℚ) (hx : (2 : ℚ) ^ (-1022 : Int) ≤ |x|) : toDouble x ≠ 0 := by
  intro h0
  have hpos : (0 : ℚ) < |x| := lt_of_lt_of_le (by positivity) hx
  have h := abs_toDouble_sub_le x hx
  rw [h0, zero_sub, abs_neg] at h
  have hlt : |x| / 2 ^ 53 < |x| := div_lt_self hpos (by norm_num)
  linarith

theorem toDouble_hundredths_ne_zero (n : Int) (hn : n ≠ 0) : toDouble ((n : ℚ) / 100) ≠ 0 := by
  apply toDouble_ne_zero
  have hnq : (1 : ℚ) ≤ |(n : ℚ)| := by
    have : (1 : Int) ≤ |n| := Int.one_le_abs hn
    exact_mod_cast this
  have hsmall : (2 : ℚ) ^ (-1022 : Int) ≤ 1 / 100 := by
    rw [zpow_neg]
    norm_num
  rw [abs_div, abs_of_pos (by norm_num : (0 : ℚ) < 100)]
  linarith

theorem dailyPriceOf_eq (f : ℚ) (disc : Option ℚ)
    (hdisc : ∀ x, disc = some x → ∃ n : Int, x = (n : ℚ) / 100) :
    dailyPriceOf (some f) disc = toDouble (effectiveDailyRate f disc) := by
  unfold dailyPriceOf effectiveDailyRate
  rcases disc with _ | x
  · rfl
  · obtain ⟨n, hn⟩ := hdisc x rfl
    by_cases hx : x = 0
    · simp [hx, toDouble_zero]
    · have hn0 : n ≠ 0 := by
        intro h
        apply hx
        rw [hn, h]
        simp
      have hne : toDouble x ≠ 0 := by
        rw [hn]
        exact toDouble_hundredths_ne_zero n hn0
      simp [hx, hne]

theorem effectiveDailyRate_hundredths (f : ℚ) (disc : Option ℚ)
    (hf : ∃ n : Int, f = (n : ℚ) / 100)
    (hdisc : ∀ x, disc = some x → ∃ n : Int, x = (n : ℚ) / 100) :
    ∃ n : Int, effectiveDailyRate f disc = (n : ℚ) / 100 := by
  unfold effectiveDailyRate
  rcases disc with _ | x
  · exact hf
  · by_cases hx : x = 0
    · simpa [hx] using hf
    · simpa [hx] using hdisc x rfl

theorem grandTotalOf_eq (f : ℚ) (disc : Option ℚ) (d : Int)
    (hf : ∃ n : Int, f = (n : ℚ) / 100)
    (hdisc : ∀ x, disc = some x → ∃ n : Int, x = (n : ℚ) / 100)
    (hd : 1 ≤ d) (hb : |effectiveDailyRate f disc * (d : ℚ)| ≤ 10 ^ 13) :
    ((toFixedHundredths (toDouble (dailyPriceOf (some f) disc * toDouble (d : ℚ))) : Int) : ℚ)
        / 100 = effectiveDailyRate f disc * (d : ℚ) ∧
    grandTotalOf (some f) disc d = toDouble (effectiveDailyRate f disc * (d : ℚ)) := by
  obtain ⟨n, hn⟩ := effectiveDailyRate_hundredths f disc hf hdisc
  have hprod : toFixedHundredths (toDouble (dailyPriceOf (some f) disc * toDouble (d : ℚ))) =
      n * d := by
    rw [dailyPriceOf_eq f disc hdisc, hn]
    apply toFixedHundredths_product n d hd
    rw [← hn]
    exact hb
  have hval : ((n * d : Int) : ℚ) / 100 = effectiveDailyRate f disc * (d : ℚ) := by
    rw [hn]
    push_cast
    ring
  refine ⟨by rw [hprod, hval], ?_⟩
  unfold grandTotalOf toFixed2
  rw [hprod, hval]

theorem grandTotalOf_int (f : ℚ) (disc : Option ℚ) (d m : Int)
    (hf : ∃ n : Int, f = (n : ℚ) / 100)
    (hdisc : ∀ x, disc = some x → ∃ n : Int, x = (n : ℚ) / 100)
    (hd : 1 ≤ d) (hb : |effectiveDailyRate f disc * (d : ℚ)| ≤ 10 ^ 13)
    (hm : effectiveDailyRate f disc * (d : ℚ) = (m : ℚ)) :
    grandTotalOf (some f) disc d = (m : ℚ) := by
  rw [(grandTotalOf_eq f disc d hf hdisc hd hb).2, hm]
  apply toDouble_intCast
  rw [hm] at hb
  have h1 : |(m : ℚ)| < 2 ^ 53 := lt_of_le_of_lt hb (by norm_num)
  exact_mod_cast h1

/-! ## Claims -/

/-- C3. For a candidate interval `[cs, ce]` and a requested interval `[rs, re]`, both
well-formed, the date condition of the conflict query with the handler's placeholder binding is
the four-clause disjunction, and it is TRUE exactly when `cs <= re` and `rs <= ce`, that is,
exactly when the two closed intervals share an instant. -/
theorem overlap_predicate (cs ce rs re : Int) (hc : cs ≤ ce) (hr : rs ≤ re) :
    boundDateCondition (some cs) (some ce) rs re =
        some (decide ((rs ≤ cs ∧ cs ≤ re) ∨ (rs ≤ ce ∧ ce ≤ re) ∨
          (cs ≤ rs ∧ rs ≤ ce) ∨ (cs ≤ re ∧ re ≤ ce))) ∧
      (boundDateCondition (some cs) (some ce) rs re = some true ↔ (cs ≤ re ∧ rs ≤ ce)) ∧
      ((cs ≤ re ∧ rs ≤ ce) ↔ ∃ t : Int, cs ≤ t ∧ t ≤ ce ∧ rs ≤ t ∧ t ≤ re) := by
  refine ⟨boundDateCondition_some cs ce rs re, ?_, ?_⟩
  · rw [boundDateCondition_some]
    simp only [Option.some.injEq, decide_eq_true_eq]
    omega
  · constructor
    · rintro ⟨h1, h2⟩
      by_cases h : cs ≤ rs
      · exact ⟨rs, h, h2, le_refl _, hr⟩
      · exact ⟨cs, le_refl _, hc, by omega, h1⟩
    · rintro ⟨t, h1, h2, h3, h4⟩
      omega

/-- Witness for C3: the stored interval `[10, 20]` against the requested interval `[15, 30]`. -/
theorem overlap_predicate_witness :
    boundDateCondition (some 10) (some 20) 15 30 = some true ↔ ((10 : Int) ≤ 30 ∧ (15 : Int) ≤ 20) :=
  (overlap_predicate 10 20 15 30 (by decide) (by decide)).2.1

/-- C10. The handler passes its date validation exactly when `start >= now`, `end >= now` and
`start < end`; the day count is the ceiling of `(end - start) / 24h`; it is at least 1 whenever
`start < end`; an interval with `end <= start` that is not in the past is rejected as an
invalid rental period; and every execution either leaves the store as it was or writes a day
count that is at least 1, computed from a request that passed the validation. -/
theorem date_validation_day_count (now rs re : Int) :
    (dateValidation now rs re true = none ↔ (now ≤ rs ∧ now ≤ re ∧ rs < re)) ∧
    rentalDaysOf rs re = ⌈((re - rs : Int) : ℚ) / ((1000 * 60 * 60 * 24 : Int) : ℚ)⌉ ∧
    (rs < re → 1 ≤ rentalDaysOf rs re) ∧
    (now ≤ rs → now ≤ re → re ≤ rs →
      dateValidation now rs re true = some "Invalid rental period.") ∧
    (∀ (throws : DbCall → Bool) (st : Store) (req : RentalRequest),
      (finalizeBooking throws now st req).store = st ∨
      ∃ s e total,
        req.rent_start_date = some s ∧ req.rent_end_date = some e ∧
        now ≤ s ∧ now ≤ e ∧ s < e ∧ 1 ≤ rentalDaysOf s e ∧
        (finalizeBooking throws now st req).store.orders =
          st.orders.map
            (writeRentalDetails req.order_id s e true req.file (rentalDaysOf s e) total) ∧
        (finalizeBooking throws now st req).store.vehicle_status = st.vehicle_status) := by
  refine ⟨dateValidation_none_iff now rs re, ?_, rentalDaysOf_pos rs re, ?_, ?_⟩
  · exact ceilDiv_eq_ceil (re - rs) msPerDay (by decide)
  · intro h1 h2 h3
    have hpos := ceilDiv_pos_iff (re - rs) msPerDay (by decide)
    have h4 : ¬ rs < now := by omega
    have h5 : ¬ re < now := by omega
    have h6 : ceilDiv (re - rs) msPerDay ≤ 0 := by omega
    simp [dateValidation, rentalDaysOf, h4, h5, h6]
  · intro throws st req
    rcases finalizeBooking_cases throws now st req with h | h
    · exact Or.inl h.1
    · obtain ⟨s, e, o, rest, p, rest1, hs, he, _, hdv, _, _, _, _, hst, _, _⟩ := h
      have hv := (dateValidation_none_iff now s e).1 hdv
      refine Or.inr ⟨s, e, grandTotalOf p.final_price p.discounted_price (rentalDaysOf s e), hs, he, hv.1, hv.2.1, hv.2.2, rentalDaysOf_pos s e hv.2.2, ?_, ?_⟩
      · rw [hst]
      · rw [hst]

/-- Witness for C10: at 1 May, the request 1 June to 3 June passes and counts 2 days. -/
theorem date_validation_day_count_witness :
    dateValidation may1 jun1 jun3 true = none ∧ 1 ≤ rentalDaysOf jun1 jun3 :=
  ⟨(date_validation_day_count may1 jun1 jun3).1.2 (by decide),
    (date_validation_day_count may1 jun1 jun3).2.2.1 (by decide)⟩

/-- C2. If a reservation of the requested vehicle has status `completed`, `payment_pending` or
`draft` and a stored interval that meets the requested one under the four-clause test, then an
otherwise valid request is answered with the 400 conflict response, whose `conflictingDates`
contains the stored interval, and the store is left as it was. -/
theorem conflict_rejection (throws : DbCall → Bool) (now : Int) (st : Store)
    (req : RentalRequest) (o : Order) (cs ce rs re : Int)
    (hmem : o ∈ st.orders) (hveh : o.vehicle_id = req.vehicle_id)
    (hstatus : o.status = "completed" ∨ o.status = "payment_pending" ∨ o.status = "draft")
    (hcs : o.rent_start_date = some cs) (hce : o.rent_end_date = some ce)
    (hov : (rs ≤ cs ∧ cs ≤ re) ∨ (rs ≤ ce ∧ ce ≤ re) ∨ (cs ≤ rs ∧ rs ≤ ce) ∨
      (cs ≤ re ∧ re ≤ ce))
    (hrs : req.rent_start_date = some rs) (hre : req.rent_end_date = some re)
    (hterms : isTermsAccepted req.terms = true)
    (hnow1 : now ≤ rs) (hnow2 : now ≤ re) (hlt : rs < re)
    (hb : throws DbCall.beginTransaction = false)
    (hq : throws DbCall.conflictQuery = false) :
    (finalizeBooking throws now st req).response.code = 400 ∧
    (finalizeBooking throws now st req).response.message =
      "Vehicle is already rented during the requested period." ∧
    (finalizeBooking throws now st req).response.rentalDetails = none ∧
    (∃ l, (finalizeBooking throws now st req).response.conflictingDates = some l ∧
      (some cs, some ce) ∈ l) ∧
    (finalizeBooking throws now st req).store = st := by
  have hdv := (dateValidation_none_iff now rs re).2 ⟨hnow1, hnow2, hlt⟩
  have hsel : conflictWhere req.vehicle_id rs re o = true := by
    simp [conflictWhere, hveh, statusCondition_of_blocking o.status hstatus, hcs, hce,
      boundDateCondition_some, hov]
  have hin : (some cs, some ce) ∈ conflictQuery st.orders req.vehicle_id rs re := by
    unfold conflictQuery
    rw [List.mem_map]
    exact ⟨o, List.mem_filter.2 ⟨hmem, hsel⟩, by rw [hcs, hce]⟩
  rcases hcq : conflictQuery st.orders req.vehicle_id rs re with _ | ⟨c, l⟩
  · rw [hcq] at hin
    cases hin
  · rw [hcq] at hin
    simp [finalizeBooking, hrs, hre, hterms, hb, hq, hdv, hcq]
    simpa using hin

/-- Witness for C2: vehicle 1 is held 1 to 3 June by a `payment_pending` reservation; a request
for 2 to 4 June on vehicle 1 is answered with the conflict response listing that interval. -/
theorem conflict_rejection_witness :
    (finalizeBooking noFaults may1 bookedStore
        (rentalRequest 1 2 jun2 jun4 (some "uploads/b.png"))).response.code = 400 ∧
    (∃ l, (finalizeBooking noFaults may1 bookedStore
        (rentalRequest 1 2 jun2 jun4 (some "uploads/b.png"))).response.conflictingDates = some l ∧
      (some jun1, some jun3) ∈ l) ∧
    (finalizeBooking noFaults may1 bookedStore
        (rentalRequest 1 2 jun2 jun4 (some "uploads/b.png"))).store = bookedStore :=
  have h := conflict_rejection noFaults may1 bookedStore
    (rentalRequest 1 2 jun2 jun4 (some "uploads/b.png")) bookedOrder jun1 jun3 jun2 jun4
    (by decide) (by decide) (by decide) (by decide) (by decide) (by decide) (by decide)
    (by decide) (by decide) (by decide) (by decide) (by decide) (by decide) (by decide)
  ⟨h.1, h.2.2.2.1, h.2.2.2.2⟩

/-- C4. A reservation whose status is `canceled` or `expired` is never selected by the conflict
query, whatever its dates; and when every reservation of the requested vehicle that meets the
requested interval has such a status, an otherwise valid request (reservation found and without
rental details, pricing row found, dates valid, terms accepted, no store error) succeeds. -/
theorem terminal_never_blocks (now : Int) (st : Store) (req : RentalRequest) (rs re : Int)
    (o : Order) (rest : List Order) (p : VehicleStatus) (rest1 : List VehicleStatus)
    (hrs : req.rent_start_date = some rs) (hre : req.rent_end_date = some re)
    (hterms : isTermsAccepted req.terms = true)
    (hnow1 : now ≤ rs) (hnow2 : now ≤ re) (hlt : rs < re)
    (hfo : st.orders.filter (fun o => o.order_id == req.order_id) = o :: rest)
    (hrd : hasRentalDetails o = false)
    (hfp : st.vehicle_status.filter (fun v => v.vehicle_id == req.vehicle_id) = p :: rest1)
    (hterm : ∀ x ∈ st.orders, x.vehicle_id = req.vehicle_id →
      boundDateCondition x.rent_start_date x.rent_end_date rs re = some true →
      x.status = "canceled" ∨ x.status = "expired") :
    (∀ (x : Order) (v : Nat) (a b : Int), x.status = "canceled" ∨ x.status = "expired" →
      conflictWhere v a b x = false) ∧
    conflictQuery st.orders req.vehicle_id rs re = [] ∧
    (finalizeBooking noFaults now st req).response.code = 200 ∧
    (finalizeBooking noFaults now st req).store.orders =
      st.orders.map
        (writeRentalDetails req.order_id rs re true req.file (rentalDaysOf rs re)
          (grandTotalOf p.final_price p.discounted_price (rentalDaysOf rs re))) ∧
    (finalizeBooking noFaults now st req).tx = [TxEvent.begin, TxEvent.commit] := by
  have hcq := conflictQuery_eq_nil_of_terminal st.orders req.vehicle_id rs re hterm
  have hdv := (dateValidation_none_iff now rs re).2 ⟨hnow1, hnow2, hlt⟩
  have hok := finalizeBooking_ok noFaults now st req rs re o rest p rest1 (fun _ => rfl)
    hrs hre hterms hdv hcq hfo hrd hfp
  refine ⟨?_, hcq, ?_, ?_, ?_⟩
  · intro x v a b hx
    simp [conflictWhere, statusCondition_of_terminal x.status hx]
  · rw [hok]
  · rw [hok]
  · rw [hok]

/-- Witness for C4: vehicle 1 carries a canceled and an expired reservation for 1 to 3 June; the
request for 2 to 4 June on the draft order 2 succeeds. -/
theorem terminal_never_blocks_witness :
    (finalizeBooking noFaults may1 lapsedStore
      (rentalRequest 1 2 jun2 jun4 (some "uploads/b.png"))).response.code = 200 :=
  (terminal_never_blocks may1 lapsedStore (rentalRequest 1 2 jun2 jun4 (some "uploads/b.png"))
    jun2 jun4 (blankOrder 2 1 "draft") [] vehicle1Price []
    (by decide) (by decide) (by decide) (by decide) (by decide) (by decide) (by decide)
    (by decide) (by decide) (by decide)).2.2.1

/-- C9, counterexample. Vehicle 3 costs 99999999999999.99 a day and is booked for 3 days (1 to
4 June): the request succeeds, `dailyRate * days` is 299999999999999.97, but `toFixed(2)` writes
299999999999999.94 and the stored total is the number 299999999999999.9375, which is neither
`dailyRate * days` nor the binary64 number nearest to it (300000000000000). -/
theorem price_computation_counterexample :
    (finalizeBooking noFaults may1 costlyStore
      (rentalRequest 3 8 jun1 jun4 (some "uploads/b.png"))).response.code = 200 ∧
    rentalDaysOf jun1 jun4 = 3 ∧
    effectiveDailyRate (9999999999999999 / 100) none * ((3 : Int) : ℚ) =
      29999999999999997 / 100 ∧
    toFixedHundredths (toDouble (dailyPriceOf (some (9999999999999999 / 100)) none *
      toDouble ((3 : Int) : ℚ))) = 29999999999999994 ∧
    (finalizeBooking noFaults may1 costlyStore
      (rentalRequest 3 8 jun1 jun4 (some "uploads/b.png"))).store.orders.map
        (fun o => o.grand_total) = [some (4799999999999999 / 16)] ∧
    (4799999999999999 / 16 : ℚ) ≠ 29999999999999997 / 100 ∧
    toDouble (29999999999999997 / 100) = 300000000000000 ∧
    (4799999999999999 / 16 : ℚ) ≠ 300000000000000 := by
  have hdays : rentalDaysOf jun1 jun4 = 3 := by decide
  have h3 : toDouble ((3 : Int) : ℚ) = 3 := by
    have := toDouble_intCast 3 (by norm_num)
    simpa using this
  have hprod : toDouble (dailyPriceOf (some (9999999999999999 / 100)) none *
      toDouble ((3 : Int) : ℚ)) = 4799999999999999 / 16 := by
    rw [h3]
    show toDouble (toDouble (9999999999999999 / 100) * 3) = _
    rw [toDouble_costly_price, toDouble_costly_product]
  have htotal : grandTotalOf (some (9999999999999999 / 100)) none 3 = 4799999999999999 / 16 := by
    unfold grandTotalOf toFixed2
    rw [hprod, toFixedHundredths_costly, toDouble_costly_parse]
  refine ⟨by decide, hdays, ?_, ?_, ?_, by norm_num, toDouble_costly_exact, by norm_num⟩
  · norm_num [effectiveDailyRate]
  · rw [hprod, toFixedHundredths_costly]
  · rw [finalizeBooking_ok noFaults may1 costlyStore
      (rentalRequest 3 8 jun1 jun4 (some "uploads/b.png")) jun1 jun4 (blankOrder 8 3 "draft") []
      costlyPrice [] (fun _ => rfl) rfl rfl (by decide) (by decide) (by decide) (by decide)
      (by decide) rfl]
    simp only [hdays]
    simp [costlyStore, rentalRequest, writeRentalDetails, blankOrder, costlyPrice, htotal]

/-- C9, amended. On every successful execution whose pricing row has a final price and prices
of at most two decimal places, every row of the finalized reservation stores the day count (at
least 1), the status `payment_pending` and the total the handler computed; and when
`|dailyRate * days| <= 10 ^ 13`, the decimal that `toFixed(2)` writes is exactly
`dailyRate * days` and the stored total is the binary64 number nearest to it, which is
`dailyRate * days` itself when that is an integer; `dailyRate` is the discounted price when
present and non-zero and the final price otherwise.  In particular (100, null, 3) gives 300,
(100, 80, 3) gives 240, and price 50 / discounted 40 for 1 June to 3 June 2024 gives 2 days and
a total of 80. -/
theorem price_computation :
    (∀ (throws : DbCall → Bool) (now : Int) (st : Store) (req : RentalRequest)
      (p : VehicleStatus) (rest1 : List VehicleStatus) (f : ℚ),
      st.vehicle_status.filter (fun v => v.vehicle_id == req.vehicle_id) = p :: rest1 →
      p.final_price = some f →
      (∃ n : Int, f = (n : ℚ) / 100) →
      (∀ x, p.discounted_price = some x → ∃ n : Int, x = (n : ℚ) / 100) →
      (finalizeBooking throws now st req).response.code = 200 →
      ∃ rs re,
        req.rent_start_date = some rs ∧ req.rent_end_date = some re ∧
        1 ≤ rentalDaysOf rs re ∧
        (∃ o ∈ (finalizeBooking throws now st req).store.orders, o.order_id = req.order_id) ∧
        (∀ o ∈ (finalizeBooking throws now st req).store.orders, o.order_id = req.order_id →
          o.rental_days = some (rentalDaysOf rs re) ∧
          o.status = "payment_pending" ∧
          o.grand_total =
            some (grandTotalOf (some f) p.discounted_price (rentalDaysOf rs re))) ∧
        (|effectiveDailyRate f p.discounted_price * (rentalDaysOf rs re : ℚ)| ≤ 10 ^ 13 →
          ((toFixedHundredths (toDouble (dailyPriceOf (some f) p.discounted_price *
              toDouble (rentalDaysOf rs re : ℚ))) : Int) : ℚ) / 100 =
            effectiveDailyRate f p.discounted_price * (rentalDaysOf rs re : ℚ) ∧
          grandTotalOf (some f) p.discounted_price (rentalDaysOf rs re) =
            toDouble (effectiveDailyRate f p.discounted_price * (rentalDaysOf rs re : ℚ)) ∧
          ∀ m : Int,
            effectiveDailyRate f p.discounted_price * (rentalDaysOf rs re : ℚ) = (m : ℚ) →
            grandTotalOf (some f) p.discounted_price (rentalDaysOf rs re) = (m : ℚ))) ∧
    grandTotalOf (some 100) none 3 = 300 ∧
    grandTotalOf (some 100) (some 80) 3 = 240 ∧
    rentalDaysOf jun1 jun3 = 2 ∧
    grandTotalOf (some 50) (some 40) (rentalDaysOf jun1 jun3) = 80 ∧
    (finalizeBooking noFaults may1 draftStore
        (rentalRequest 1 2 jun1 jun3 (some "uploads/b.png"))).store.orders =
      [ { blankOrder 2 1 "payment_pending" with
          rent_start_date := some jun1
          rent_end_date := some jun3
          terms := some true
          licenseImage := some "uploads/b.png"
          rental_days := some 2
          grand_total := some 80 } ] := by
  have hdays : rentalDaysOf jun1 jun3 = 2 := by decide
  have h80 : grandTotalOf (some 50) (some 40) 2 = 80 := by
    have := grandTotalOf_int 50 (some 40) 2 80 ⟨5000, by norm_num⟩
      (fun x hx => ⟨4000, by rw [← Option.some.inj hx]; norm_num⟩) (by norm_num)
      (by norm_num [effectiveDailyRate, abs_of_pos]) (by norm_num [effectiveDailyRate])
    simpa using this
  refine ⟨?_, ?_, ?_, hdays, ?_, ?_⟩
  · intro throws now st req p rest1 f hfp hf hf2 hd2 hok
    rcases finalizeBooking_cases throws now st req with h | h
    · exact absurd hok h.2
    obtain ⟨rs, re, o, rest, p1, rest2, hs, he, _, hdv, _, hfo, _, hfp1, hst, _, _⟩ := h
    rw [hfp] at hfp1
    obtain ⟨hpp, -⟩ := List.cons.inj hfp1
    subst hpp
    have hv := (dateValidation_none_iff now rs re).1 hdv
    have hd1 := rentalDaysOf_pos rs re hv.2.2
    refine ⟨rs, re, hs, he, hd1, ?_, ?_, ?_⟩
    · have ho : o ∈ st.orders.filter (fun o => o.order_id == req.order_id) := by
        rw [hfo]; exact List.mem_cons_self _ _
      rw [List.mem_filter] at ho
      refine ⟨writeRentalDetails req.order_id rs re true req.file (rentalDaysOf rs re)
        (grandTotalOf p.final_price p.discounted_price (rentalDaysOf rs re)) o, ?_, ?_⟩
      · rw [hst]
        exact List.mem_map_of_mem _ ho.1
      · rw [writeRentalDetails_order_id]
        simpa using ho.2
    · intro x hx hid
      rw [hst] at hx
      obtain ⟨y, -, rfl⟩ := List.mem_map.1 hx
      rw [writeRentalDetails_order_id] at hid
      simp [writeRentalDetails, hid, hf]
    · intro hb
      have h := grandTotalOf_eq f p.discounted_price (rentalDaysOf rs re) hf2 hd2 hd1 hb
      exact ⟨h.1, h.2, fun m hm =>
        grandTotalOf_int f p.discounted_price (rentalDaysOf rs re) m hf2 hd2 hd1 hb hm⟩
  · have := grandTotalOf_int 100 none 3 300 ⟨10000, by norm_num⟩
      (fun x hx => by cases hx) (by norm_num)
      (by norm_num [effectiveDailyRate, abs_of_pos]) (by norm_num [effectiveDailyRate])
    simpa using this
  · have := grandTotalOf_int 100 (some 80) 3 240 ⟨10000, by norm_num⟩
      (fun x hx => ⟨8000, by rw [← Option.some.inj hx]; norm_num⟩) (by norm_num)
      (by norm_num [effectiveDailyRate, abs_of_pos]) (by norm_num [effectiveDailyRate])
    simpa using this
  · rw [hdays]; exact h80
  · rw [finalizeBooking_ok noFaults may1 draftStore
      (rentalRequest 1 2 jun1 jun3 (some "uploads/b.png")) jun1 jun3 (blankOrder 2 1 "draft") []
      vehicle1Price [] (fun _ => rfl) rfl rfl (by decide) (by decide) (by decide) (by decide)
      (by decide) (by decide)]
    simp only [hdays]
    simp [draftStore, rentalRequest, writeRentalDetails, blankOrder, vehicle1Price, h80]

/-- Witness for C9: the general statement at the scenario of vehicle 1 (50 a day, discounted to
40) booked from 1 June to 3 June 2024. -/
theorem price_computation_witness :
    ∃ rs re,
      (rentalRequest 1 2 jun1 jun3 (some "uploads/b.png")).rent_start_date = some rs ∧
      (rentalRequest 1 2 jun1 jun3 (some "uploads/b.png")).rent_end_date = some re ∧
      1 ≤ rentalDaysOf rs re :=
  have h := price_computation.1 noFaults may1 draftStore
    (rentalRequest 1 2 jun1 jun3 (some "uploads/b.png")) vehicle1Price [] 50
    (by decide) rfl ⟨5000, by norm_num⟩
    (fun x hx => ⟨4000, by
      have : x = 40 := by
        have h40 : vehicle1Price.discounted_price = some 40 := rfl
        rw [h40] at hx
        exact (Option.some.inj hx).symm
      rw [this]; norm_num⟩)
    (by decide)
  match h with
  | ⟨rs, re, h1, h2, h3, _⟩ => ⟨rs, re, h1, h2, h3⟩

/-- C7, counterexample. The draft order 2 is settled by COD (200, status `completed`); a
rental-details request on the same order is then accepted (200, status back to
`payment_pending`), and a later COD call on the same order is accepted again. -/
theorem deferred_settlement_counterexample :
    (settleDeferred noFaults draftStore 2).response.code = 200 ∧
    (settleDeferred noFaults draftStore 2).store.orders.map (fun o => (o.order_id, o.status)) =
      [(2, "completed")] ∧
    (finalizeBooking noFaults may1 (settleDeferred noFaults draftStore 2).store
      (rentalRequest 1 2 jun1 jun3 (some "uploads/b.png"))).response.code = 200 ∧
    (finalizeBooking noFaults may1 (settleDeferred noFaults draftStore 2).store
      (rentalRequest 1 2 jun1 jun3 (some "uploads/b.png"))).store.orders.map
        (fun o => (o.order_id, o.status)) = [(2, "payment_pending")] ∧
    (settleDeferred noFaults
      (finalizeBooking noFaults may1 (settleDeferred noFaults draftStore 2).store
        (rentalRequest 1 2 jun1 jun3 (some "uploads/b.png"))).store 2).response.code = 200 := by
  decide

/-- C7, amended. For an existing reservation that is not `completed` and whose `paid_status` is
not 1, the COD handler succeeds, sets `status = completed`, `paid_status = pending`,
`delivered_status = not_delivered`, `transaction_uuid = N/A` and `payment_method = COD` on it,
leaves the other reservations as they were, and sets `availability = 1` on the pricing rows of
the reservation's vehicle.  After any sequence of later calls of the two handlers (any orders,
any store errors) among which no rental-details request succeeds on this reservation, a COD
call on it is never answered with 200, leaves both tables as they were, and, with no store
error, is answered with the 400 "already completed or paid" response; the empty sequence is the
immediately following call. -/
theorem deferred_settlement (st : Store) (order_id : Nat) (o : Order) (rest : List Order)
    (hfo : st.orders.filter (fun o => o.order_id == order_id) = o :: rest)
    (hst : o.status ≠ "completed") (hpd : o.paid_status ≠ JsVal.num 1) :
    (settleDeferred noFaults st order_id).response.code = 200 ∧
    (settleDeferred noFaults st order_id).tx = [TxEvent.begin, TxEvent.commit] ∧
    (∃ x ∈ (settleDeferred noFaults st order_id).store.orders, x.order_id = order_id) ∧
    (∀ x ∈ (settleDeferred noFaults st order_id).store.orders, x.order_id = order_id →
      x.status = "completed" ∧ x.paid_status = JsVal.str "pending" ∧
      x.delivered_status = some "not_delivered" ∧ x.transaction_uuid = some "N/A" ∧
      x.payment_method = some "COD") ∧
    (settleDeferred noFaults st order_id).store.orders = st.orders.map (writeCod order_id) ∧
    (∀ x ∈ st.orders, x.order_id ≠ order_id → writeCod order_id x = x) ∧
    (settleDeferred noFaults st order_id).store.vehicle_status =
      st.vehicle_status.map (writeAvailable o.vehicle_id) ∧
    (∀ v ∈ (settleDeferred noFaults st order_id).store.vehicle_status,
      v.vehicle_id = o.vehicle_id → v.availability = 1) ∧
    (∀ (calls : List Call) (throws : DbCall → Bool),
      noRefinalize order_id (settleDeferred noFaults st order_id).store calls = true →
      (settleDeferred throws (runCalls (settleDeferred noFaults st order_id).store calls)
        order_id).response.code ≠ 200 ∧
      (settleDeferred throws (runCalls (settleDeferred noFaults st order_id).store calls)
        order_id).store = runCalls (settleDeferred noFaults st order_id).store calls ∧
      (settleDeferred noFaults (runCalls (settleDeferred noFaults st order_id).store calls)
        order_id).response = plain 400 "Order is already completed or paid.") := by
  have hstore : (settleDeferred noFaults st order_id).store =
      { orders := st.orders.map (writeCod order_id)
        vehicle_status := st.vehicle_status.map (writeAvailable o.vehicle_id) } := by
    simp [settleDeferred, noFaults, hfo, hst, hpd]
  have hfo2 : (st.orders.map (writeCod order_id)).filter (fun o => o.order_id == order_id) =
      writeCod order_id o :: rest.map (writeCod order_id) := by
    rw [filter_map_writeCod, hfo, List.map_cons]
  have hoid : o.order_id = order_id := by
    have ho : o ∈ st.orders.filter (fun o => o.order_id == order_id) := by
      rw [hfo]; exact List.mem_cons_self _ _
    simpa using (List.mem_filter.1 ho).2
  have hcompleted : (writeCod order_id o).status = "completed" := by
    simp [writeCod, hoid]
  have hmem : o ∈ st.orders := by
    have ho : o ∈ st.orders.filter (fun o => o.order_id == order_id) := by
      rw [hfo]; exact List.mem_cons_self _ _
    exact (List.mem_filter.1 ho).1
  refine ⟨?_, ?_, ?_, ?_, ?_, ?_, ?_, ?_, ?_⟩
  · simp [settleDeferred, noFaults, hfo, hst, hpd, plain]
  · simp [settleDeferred, noFaults, hfo, hst, hpd]
  · rw [hstore]
    exact ⟨writeCod order_id o, List.mem_map_of_mem _ hmem, by rw [writeCod_order_id, hoid]⟩
  · intro x hx hid
    rw [hstore] at hx
    obtain ⟨y, -, rfl⟩ := List.mem_map.1 hx
    rw [writeCod_order_id] at hid
    simp [writeCod, hid]
  · rw [hstore]
  · intro x _ hne
    simp [writeCod, hne]
  · rw [hstore]
  · intro v hv hid
    rw [hstore] at hv
    obtain ⟨w, -, rfl⟩ := List.mem_map.1 hv
    unfold writeAvailable at hid ⊢
    split
    · rfl
    · rename_i hne
      rw [if_neg hne] at hid
      exact absurd hid hne
  · intro calls throws hno
    have hsettled : ∃ o1 rest1,
        (settleDeferred noFaults st order_id).store.orders.filter
          (fun o => o.order_id == order_id) = o1 :: rest1 ∧ o1.status = "completed" := by
      rw [hstore]
      exact ⟨_, _, hfo2, hcompleted⟩
    exact settleDeferred_rejects_of_completed throws _ order_id
      (settled_runCalls order_id calls _ hsettled hno)

/-- Witness for C7: order 6 of vehicle 1 is `payment_pending`; the COD handler succeeds on it;
after a further COD call and a rental-details request on it (both rejected), a COD call on it
is rejected. -/
theorem deferred_settlement_witness :
    (settleDeferred noFaults pendingStore 6).response.code = 200 ∧
    (settleDeferred noFaults
      (runCalls (settleDeferred noFaults pendingStore 6).store
        [Call.settle noFaults 6,
          Call.finalize noFaults may1 (rentalRequest 1 6 jun4 jun5 (some "uploads/c.png"))])
      6).response = plain 400 "Order is already completed or paid." :=
  have h := deferred_settlement pendingStore 6 { bookedOrder with order_id := 6 } []
    (by decide) (by decide) (by decide)
  ⟨h.1, (h.2.2.2.2.2.2.2.2
    [Call.settle noFaults 6,
      Call.finalize noFaults may1 (rentalRequest 1 6 jun4 jun5 (some "uploads/c.png"))]
    noFaults (by decide)).2.2⟩

/-- C5, counterexample. A first call without an uploaded document succeeds on the draft order 2
(1 to 3 June); a later call on the same order (4 to 5 June, with a document) succeeds as well
and replaces the stored interval and document reference. -/
theorem write_once_counterexample :
    (finalizeBooking noFaults may1 draftStore (rentalRequest 1 2 jun1 jun3 none)).response.code
      = 200 ∧
    (finalizeBooking noFaults may1
      (finalizeBooking noFaults may1 draftStore (rentalRequest 1 2 jun1 jun3 none)).store
      (rentalRequest 1 2 jun4 jun5 (some "uploads/c.png"))).response.code = 200 ∧
    (finalizeBooking noFaults may1 draftStore
      (rentalRequest 1 2 jun1 jun3 none)).store.orders.map
        (fun o => (o.rent_start_date, o.rent_end_date, o.licenseImage)) =
      [(some jun1, some jun3, none)] ∧
    (finalizeBooking noFaults may1
      (finalizeBooking noFaults may1 draftStore (rentalRequest 1 2 jun1 jun3 none)).store
      (rentalRequest 1 2 jun4 jun5 (some "uploads/c.png"))).store.orders.map
        (fun o => (o.rent_start_date, o.rent_end_date, o.licenseImage)) =
      [(some jun4, some jun5, some "uploads/c.png")] := by
  decide

/-- C5, amended. After a successful call that carried an uploaded document (a non-empty path),
every later call on the same reservation, with any vehicle id, interval, terms, document,
instant and store errors, is not answered with 200 and leaves the store, hence every stored
field of the reservation, as the first call wrote it. -/
theorem write_once_finalization (throws1 : DbCall → Bool) (now1 : Int) (st : Store)
    (req1 : RentalRequest) (path : String)
    (hfile : req1.file = some path) (hpath : path ≠ "")
    (hok : (finalizeBooking throws1 now1 st req1).response.code = 200)
    (throws2 : DbCall → Bool) (now2 : Int) (req2 : RentalRequest)
    (hsame : req2.order_id = req1.order_id) :
    (finalizeBooking throws2 now2 (finalizeBooking throws1 now1 st req1).store req2).response.code
      ≠ 200 ∧
    (finalizeBooking throws2 now2 (finalizeBooking throws1 now1 st req1).store req2).store =
      (finalizeBooking throws1 now1 st req1).store := by
  rcases finalizeBooking_cases throws1 now1 st req1 with h | h
  · exact absurd hok h.2
  obtain ⟨rs, re, o, rest, p, rest1, _, _, _, _, _, hfo, _, _, hst, _, _⟩ := h
  have hoid : o.order_id = req1.order_id := by
    have ho : o ∈ st.orders.filter (fun o => o.order_id == req1.order_id) := by
      rw [hfo]; exact List.mem_cons_self _ _
    simpa using (List.mem_filter.1 ho).2
  rw [hst, hfile]
  refine finalizeBooking_rejects_of_hasRentalDetails throws2 now2 _ req2
    (writeRentalDetails req1.order_id rs re true (some path) (rentalDaysOf rs re)
      (grandTotalOf p.final_price p.discounted_price (rentalDaysOf rs re)) o)
    (rest.map (writeRentalDetails req1.order_id rs re true (some path) (rentalDaysOf rs re)
      (grandTotalOf p.final_price p.discounted_price (rentalDaysOf rs re)))) ?_
    (hasRentalDetails_writeRentalDetails req1.order_id rs re path (rentalDaysOf rs re)
      (grandTotalOf p.final_price p.discounted_price (rentalDaysOf rs re)) o hoid hpath)
  rw [hsame]
  show List.filter _ (List.map _ st.orders) = _
  rw [filter_map_writeRentalDetails, hfo, List.map_cons]

/-- Witness for C5: the draft order 2 is finalized with a licence image (1 to 3 June); a later
call for 4 to 5 June on the same order is rejected and the store keeps the first values. -/
theorem write_once_finalization_witness :
    (finalizeBooking noFaults may1
      (finalizeBooking noFaults may1 draftStore
        (rentalRequest 1 2 jun1 jun3 (some "uploads/b.png"))).store
      (rentalRequest 1 2 jun4 jun5 (some "uploads/c.png"))).response.code ≠ 200 ∧
    (finalizeBooking noFaults may1
      (finalizeBooking noFaults may1 draftStore
        (rentalRequest 1 2 jun1 jun3 (some "uploads/b.png"))).store
      (rentalRequest 1 2 jun4 jun5 (some "uploads/c.png"))).store =
      (finalizeBooking noFaults may1 draftStore
        (rentalRequest 1 2 jun1 jun3 (some "uploads/b.png"))).store :=
  write_once_finalization noFaults may1 draftStore
    (rentalRequest 1 2 jun1 jun3 (some "uploads/b.png")) "uploads/b.png" rfl (by decide)
    (by decide) noFaults may1 (rentalRequest 1 2 jun4 jun5 (some "uploads/c.png")) rfl

/-- C6, counterexample. The COD handler accepts the canceled order 3 and turns its status into
`completed`; the rental-details handler accepts the same canceled order and turns its status
into `payment_pending`. -/
theorem terminal_absorbing_counterexample :
    (canceledStore.orders.map (fun o => (o.order_id, o.status)) = [(3, "canceled")]) ∧
    (settleDeferred noFaults canceledStore 3).response.code = 200 ∧
    (settleDeferred noFaults canceledStore 3).store.orders.map (fun o => (o.order_id, o.status))
      = [(3, "completed")] ∧
    (finalizeBooking noFaults may1 canceledStore
      (rentalRequest 1 3 jun1 jun3 (some "uploads/b.png"))).response.code = 200 ∧
    (finalizeBooking noFaults may1 canceledStore
      (rentalRequest 1 3 jun1 jun3 (some "uploads/b.png"))).store.orders.map
        (fun o => (o.order_id, o.status)) = [(3, "payment_pending")] := by
  decide

/-- C6, amended. For a reservation whose status is `completed` (or whose `paid_status` is 1),
the COD handler never answers 200 and leaves the store as it was; for a reservation, of any
status, whose interval, terms and document reference are all stored, the rental-details handler
never answers 200 and leaves the store as it was. -/
theorem terminal_states_guarded (throws : DbCall → Bool) (now : Int) (st : Store)
    (req : RentalRequest) (o : Order) (rest : List Order)
    (hfo : st.orders.filter (fun o => o.order_id == req.order_id) = o :: rest) :
    (o.status = "completed" ∨ o.paid_status = JsVal.num 1 →
      (settleDeferred throws st req.order_id).response.code ≠ 200 ∧
      (settleDeferred throws st req.order_id).store = st) ∧
    (hasRentalDetails o = true →
      (finalizeBooking throws now st req).response.code ≠ 200 ∧
      (finalizeBooking throws now st req).store = st) := by
  refine ⟨?_, finalizeBooking_rejects_of_hasRentalDetails throws now st req o rest hfo⟩
  intro hdone
  rcases settleDeferred_cases throws st req.order_id with h | h
  · exact ⟨h.2, h.1⟩
  · obtain ⟨o1, rest2, hfo1, hst, hpd, _⟩ := h
    rw [hfo] at hfo1
    obtain ⟨hoo, -⟩ := List.cons.inj hfo1
    subst hoo
    rcases hdone with h | h
    · exact absurd h hst
    · exact absurd h hpd

/-- Witness for C6: the finalized order 6, once settled by COD, is `completed`; a further COD
call and a further rental-details call both leave the store as it was. -/
theorem terminal_states_guarded_witness :
    (settleDeferred noFaults (settleDeferred noFaults pendingStore 6).store 6).store =
      (settleDeferred noFaults pendingStore 6).store ∧
    (finalizeBooking noFaults may1 (settleDeferred noFaults pendingStore 6).store
      (rentalRequest 1 6 jun4 jun5 (some "uploads/c.png"))).store =
      (settleDeferred noFaults pendingStore 6).store :=
  have h := terminal_states_guarded noFaults may1 (settleDeferred noFaults pendingStore 6).store
    (rentalRequest 1 6 jun4 jun5 (some "uploads/c.png"))
    (writeCod 6 { bookedOrder with order_id := 6 }) [] (by decide)
  ⟨(h.1 (Or.inl (by decide))).2, (h.2 (by decide)).2⟩

/-- C1, the failing execution. Vehicle 1 is held from 1 to 3 June by order 1
(`payment_pending`) and order 2 is a draft for vehicle 1, so the store has no double booking.
The request `PATCH /7/2/2` names vehicle 2 in the URL and asks for 2 to 4 June: the conflict
query runs on vehicle 2, the handler answers 200 and writes the interval on order 2, which
belongs to vehicle 1; orders 1 and 2 now overlap on vehicle 1. -/
theorem double_booking_by_vehicle_mismatch :
    NoDoubleBooking bookedStore ∧
    (finalizeBooking noFaults may1 bookedStore
      (rentalRequest 2 2 jun2 jun4 (some "uploads/b.png"))).response.code = 200 ∧
    (finalizeBooking noFaults may1 bookedStore
      (rentalRequest 2 2 jun2 jun4 (some "uploads/b.png"))).store.orders.map
        (fun o => (o.order_id, o.vehicle_id, o.status, o.rent_start_date, o.rent_end_date)) =
      [ (1, 1, "payment_pending", some jun1, some jun3),
        (2, 1, "payment_pending", some jun2, some jun4) ] ∧
    ¬ NoDoubleBooking (finalizeBooking noFaults may1 bookedStore
      (rentalRequest 2 2 jun2 jun4 (some "uploads/b.png"))).store := by
  decide

/-- C8, the failing executions. A request whose start date is in the past, a request that meets
a conflict, and a COD call on an unknown order each begin the unit of work and return their 400
or 404 response with neither `rollback` nor `commit` issued; only the `catch` path, here a
throwing conflict query, issues the rollback. -/
theorem early_return_skips_rollback :
    (finalizeBooking noFaults jun2 draftStore
      (rentalRequest 1 2 jun1 jun3 (some "uploads/b.png"))).response =
        plain 400 "Rental dates cannot be in the past." ∧
    (finalizeBooking noFaults jun2 draftStore
      (rentalRequest 1 2 jun1 jun3 (some "uploads/b.png"))).tx = [TxEvent.begin] ∧
    (finalizeBooking noFaults may1 bookedStore
      (rentalRequest 1 2 jun2 jun4 (some "uploads/b.png"))).response.code = 400 ∧
    (finalizeBooking noFaults may1 bookedStore
      (rentalRequest 1 2 jun2 jun4 (some "uploads/b.png"))).tx = [TxEvent.begin] ∧
    (settleDeferred noFaults draftStore 9).response = plain 404 "Order not found." ∧
    (settleDeferred noFaults draftStore 9).tx = [TxEvent.begin] ∧
    (finalizeBooking (fun c => c == DbCall.conflictQuery) may1 draftStore
      (rentalRequest 1 2 jun1 jun3 (some "uploads/b.png"))).tx =
        [TxEvent.begin, TxEvent.rollback] := by
  decide

end RentingSystem
